import Mathlib

/-!
Verification of the formula-evaluation core of gnumeric-py
(src/gnumeric/expression_evaluation.py) against its natural-language
specification.

Modelling conventions used throughout this development:

* Python runtime values that can reach the evaluator are modelled by the
  inductive type `PyVal`.  Python `bool` is a subclass of `int`; every
  `isinstance` test in the source is translated with that subtyping taken
  into account (`isinstance(True, int)` is true in Python).
* Python `float` is modelled by its exact rational value (`ℚ`).  All the
  comparisons, zero tests and integrality tests performed by the source are
  exact on this carrier.  Arithmetic on the carrier is ideal (no rounding);
  places where genuine IEEE-754 rounding or representation could be
  observed are marked in doc comments.
* Python exceptions are modelled by the error type `PyError`; an
  `ExpressionEvaluationException` carrying an `EvaluationError` is the
  constructor `PyError.evalErr`.  `raise`/`except` becomes `Except`.
* Behaviour of the program that is genuinely outside the model (e.g. the
  `repr` of a collaborator object) is funnelled into clearly marked
  placeholder branches that no theorem below relies on.
-/

/-- Closed enumeration of spreadsheet error kinds, mirroring the Python
`EvaluationError` enum (src/gnumeric/expression_evaluation.py lines 12-19). -/
inductive EvaluationError where
  | DIV0
  | VALUE
  | NA
  | NAME
  | NUM
  | REF
  | NULL
deriving DecidableEq, Repr

/-- Canonical display string of each error kind, the enum member values of
the Python `EvaluationError`. -/
def EvaluationError.display : EvaluationError → String
  | .DIV0 => "#DIV/0!"
  | .VALUE => "#VALUE!"
  | .NA => "#N/A"
  | .NAME => "#NAME?"
  | .NUM => "#NUM!"
  | .REF => "#REF!"
  | .NULL => "#NULL!"

/-- Python runtime values that can flow through the evaluator: booleans,
integers, floats, strings, `None` (the value of an existing empty cell) and
the shared-formula wrapper object (`expression.ExpressionValue`), which has
a `.value` attribute.  Floats are modelled by their exact rational value. -/
inductive PyVal where
  | bool (b : Bool)
  | int (n : ℤ)
  | float (q : ℚ)
  | str (s : String)
  | none
  | descriptor (value : PyVal)
deriving DecidableEq, Repr

/-- Python exceptions relevant to the evaluator.  `evalErr` is the typed
`ExpressionEvaluationException`; the others are builtin exception kinds the
source raises or catches.  `notModelled` marks a behaviour outside this
model (documented at each use site); no theorem below depends on it. -/
inductive PyError where
  | evalErr (e : EvaluationError)
  | zeroDivision
  | overflowErr
  | typeErr (msg : String)
  | valueErr (msg : String)
  | keyErr
  | notModelled (what : String)
deriving DecidableEq, Repr

/-- The `type()` of a `PyVal`, as Python `type` distinguishes them (`bool`
is its own type even though it is an `int` subclass). -/
inductive PyType where
  | bool
  | int
  | float
  | str
  | nonetype
  | descriptor
deriving DecidableEq, Repr

/-- Exact Python `type(v)`. -/
def PyVal.typeOf : PyVal → PyType
  | .bool _ => .bool
  | .int _ => .int
  | .float _ => .float
  | .str _ => .str
  | .none => .nonetype
  | .descriptor _ => .descriptor

/-- Python `isinstance(v, (int, float))`.  True for booleans as well,
because `bool` is a subclass of `int` in Python. -/
def PyVal.isNumberInstance : PyVal → Bool
  | .bool _ => true
  | .int _ => true
  | .float _ => true
  | _ => false

/-- Python `isinstance(v, (int, float, str))` (again `bool` counts). -/
def PyVal.isIntFloatStrInstance : PyVal → Bool
  | .bool _ => true
  | .int _ => true
  | .float _ => true
  | .str _ => true
  | _ => false

/-- Numeric value of a boolean/integer/float operand (exact).  Unused on
other constructors (returns 0 there; every use site guards with
`isNumberInstance`). -/
def PyVal.toRat : PyVal → ℚ
  | .bool b => if b then 1 else 0
  | .int n => (n : ℚ)
  | .float q => q
  | _ => 0

/-- Whether the operand is an `int`-like Python value (`bool` or `int`),
for which Python `+`, `-`, `*` return an `int`. -/
def PyVal.isIntLike : PyVal → Bool
  | .bool _ => true
  | .int _ => true
  | _ => false

/-- Integer value of a boolean/integer operand. -/
def PyVal.toInt : PyVal → ℤ
  | .bool b => if b then 1 else 0
  | .int n => n
  | _ => 0

/-- ASCII lowercase of one character, modelling Python `str.lower` on the
ASCII subset (the only subset exercised by any concrete input below). -/
def pyLowerChar (c : Char) : Char :=
  if 65 ≤ c.toNat ∧ c.toNat ≤ 90 then Char.ofNat (c.toNat + 32) else c

/-- ASCII lowercase of a string, modelling Python `str.lower`. -/
def pyLower (s : String) : String :=
  String.mk (s.data.map pyLowerChar)

/-- Base-10 digits of `n`, least significant first, by structural
recursion on a fuel argument (so that the kernel can evaluate it inside
proofs); `fuel ≥ n` suffices. -/
def natDigitsAux : ℕ → ℕ → List ℕ
  | 0, _ => []
  | fuel + 1, n => if n = 0 then [] else n % 10 :: natDigitsAux fuel (n / 10)

/-- Base-10 digits of `n`, least significant first. -/
def natDigits (n : ℕ) : List ℕ := natDigitsAux n n

/-- Decimal digits of a natural number, most significant first, as
characters (the rendering Python `str` uses for `int`). -/
def natRepr (n : ℕ) : String :=
  if n = 0 then "0" else String.mk (((natDigits n).map Nat.digitChar).reverse)

/-- Python `str` of an `int`: optional minus sign then decimal digits. -/
def pyIntRepr (n : ℤ) : String :=
  if n < 0 then "-" ++ natRepr n.natAbs else natRepr n.natAbs

/-- Fuel-driven core of `factorExp` (structural recursion, so that the
kernel can evaluate it inside proofs); `fuel ≥ n` suffices. -/
def factorExpAux (p : ℕ) : ℕ → ℕ → ℕ
  | 0, _ => 0
  | fuel + 1, n => if 2 ≤ p ∧ 0 < n ∧ p ∣ n then factorExpAux p fuel (n / p) + 1 else 0

/-- Largest exponent `e` such that `p ^ e` divides `n` (for `2 ≤ p`,
`0 < n`; junk value 0 otherwise). -/
def factorExp (p n : ℕ) : ℕ := factorExpAux p n n

/-- Exact decimal rendering of a non-integer rational whose denominator is
of the form `2^a * 5^b` — every IEEE-754 double is of this form.  CPython
`str` prints the shortest decimal that re-reads to the same double (or
scientific notation); this model prints the exact expansion instead.  Both
renderings re-parse to the same value, which is the only property any
theorem below uses.  Rationals outside this form (unreachable as doubles)
get a placeholder. -/
def pyFloatFracRepr (q : ℚ) : String :=
  let a := factorExp 2 q.den
  let b := factorExp 5 q.den
  let k := max a b
  if q.den = 2 ^ a * 5 ^ b then
    let m := q.num.natAbs * (10 ^ k / q.den)
    let intDigits := natRepr (m / 10 ^ k)
    let fracRaw := natRepr (m % 10 ^ k)
    let frac := String.mk (List.replicate (k - fracRaw.length) '0') ++ fracRaw
    (if q.num < 0 then "-" else "") ++ intDigits ++ "." ++ frac
  else "<unrepresentable float>"

/-- Python `str` of a float: `"x.0"` for integer-valued floats, otherwise
the decimal expansion (see `pyFloatFracRepr`). -/
def pyFloatRepr (q : ℚ) : String :=
  if q.den = 1 then pyIntRepr q.num ++ ".0" else pyFloatFracRepr q

/-- Python `str(value)` on the modelled value universe.  The `repr` of the
shared-formula wrapper object is collaborator-defined and outside the
model; it gets a placeholder that no theorem relies on. -/
def pyStr : PyVal → String
  | .bool b => if b then "True" else "False"
  | .int n => pyIntRepr n
  | .float q => pyFloatRepr q
  | .str s => s
  | .none => "None"
  | .descriptor _ => "<ExpressionValue>"

/-- Direct translation of `to_str` (src/gnumeric/expression_evaluation.py
lines 83-88): an integer-valued float is first replaced by the
corresponding `int`, a boolean by the text `TRUE`/`FALSE`, and the result
is rendered with `str`. -/
def to_str (value : PyVal) : String :=
  match value with
  | .float q => if q.den = 1 then pyStr (.int q.num) else pyStr (.float q)
  | .bool b => pyStr (.str (if b then "TRUE" else "FALSE"))
  | v => pyStr v

/-- The six comparison operators of the `logical_op` grammar rule. -/
inductive LogicalOp where
  | eq
  | ne
  | lt
  | le
  | gt
  | ge
deriving DecidableEq, Repr

/-- The five arithmetic operators of the `sum` / `product` /
`exponentiation` grammar rules. -/
inductive ArithOp where
  | add
  | sub
  | mul
  | div
  | pow
deriving DecidableEq, Repr

/-- Python string `<`: lexicographic comparison by code point. -/
def pyStrLtChars : List Char → List Char → Bool
  | [], [] => false
  | [], _ :: _ => true
  | _ :: _, [] => false
  | a :: as, b :: bs =>
    if a = b then pyStrLtChars as bs else decide (a.toNat < b.toNat)

/-- Apply a comparison operator given a strict-order test and an equality
test, exactly as the `if`/`elif` chain of `ExpressionEvaluator.logical`
maps each operator to the native Python comparison. -/
def applyCmp {α : Type} (op : LogicalOp) (ltF eqF : α → α → Bool) (a b : α) : Bool :=
  match op with
  | .eq => eqF a b
  | .ne => !eqF a b
  | .lt => ltF a b
  | .le => ltF a b || eqF a b
  | .gt => ltF b a
  | .ge => ltF b a || eqF a b

/-- The fixed `type_val_mapper` dictionary of `ExpressionEvaluator.logical`
(`{float: 0, str: 50, bool: 100}`); indexing with any other type raises a
`KeyError`, modelled by `Option.none` at the use site. -/
def type_val_mapper : PyType → Option ℤ
  | .float => some 0
  | .str => some 50
  | .bool => some 100
  | _ => Option.none

namespace ExpressionEvaluator

/-- Direct translation of `ExpressionEvaluator.logical`
(src/gnumeric/expression_evaluation.py lines 133-164): string operands are
lowercased; each operand type is normalised with `int` replaced by
`float`; on a type mismatch both operands are replaced by the
`type_val_mapper` ordinals; the operator is then applied natively.  The
trailing `else` raising `ValueError` for an unknown operator is
unreachable here because `LogicalOp` is exactly the grammar's six
operators. -/
def logical (a0 : PyVal) (op : LogicalOp) (b0 : PyVal) : Except PyError PyVal :=
  let a : PyVal := match a0 with | .str s => .str (pyLower s) | v => v
  let b : PyVal := match b0 with | .str s => .str (pyLower s) | v => v
  let aT := if a.typeOf = .int then PyType.float else a.typeOf
  let bT := if b.typeOf = .int then PyType.float else b.typeOf
  if aT ≠ bT then
    match type_val_mapper aT, type_val_mapper bT with
    | some x, some y =>
      .ok (.bool (applyCmp op (fun u v => decide (u < v)) (fun u v => decide (u = v)) x y))
    | _, _ => .error .keyErr
  else
    if aT = PyType.float then
      .ok (.bool (applyCmp op (fun u v => decide (u < v)) (fun u v => decide (u = v)) a.toRat b.toRat))
    else
      match a, b with
      | .str x, .str y =>
        .ok (.bool (applyCmp op (fun u v : String => pyStrLtChars u.data v.data) (fun u v => decide (u = v)) x y))
      | .bool x, .bool y =>
        .ok (.bool (applyCmp op (fun u v : Bool => decide (u.toNat < v.toNat)) (fun u v => decide (u = v)) x y))
      | .none, .none =>
        match op with
        | .eq => .ok (.bool true)
        | .ne => .ok (.bool false)
        | _ => .error (.typeErr "not supported between instances of NoneType and NoneType")
      | _, _ => .error (.notModelled "identity comparison of collaborator objects")

end ExpressionEvaluator

/-- Overflow threshold of the double-precision range used by `math.pow`:
results at or beyond `2 ^ 1024` in magnitude raise `OverflowError` (the
model places the rounding boundary exactly at `2 ^ 1024`; the largest
finite double is just below it). -/
def floatOverflowBound : ℚ := 2 ^ 1024

/-- Model of CPython `math.pow(x, y)` on exact rational carriers.  Both
arguments are first converted to `float` — an integer of magnitude at or
beyond the double range raises `OverflowError` at that conversion.
`0 ** negative` and a negative base with a non-integer exponent raise
`ValueError` (math domain error).  For an integer exponent the result is
the exact power, with `OverflowError` when it leaves the double range; a
non-integer exponent with a positive base yields an irrational result that
a rational carrier cannot represent — that branch is out of model and no
theorem below relies on it. -/
def math_pow (x y : ℚ) : Except PyError ℚ :=
  if floatOverflowBound ≤ |x| ∨ floatOverflowBound ≤ |y| then .error .overflowErr
  else if x = 0 ∧ y < 0 then .error (.valueErr "math domain error")
  else if y.den = 1 then
    let r := x ^ y.num
    if floatOverflowBound ≤ |r| then .error .overflowErr else .ok r
  else if x < 0 then .error (.valueErr "math domain error")
  else .error (.notModelled "irrational result of math.pow")

namespace ExpressionEvaluator

/-- Direct translation of `ExpressionEvaluator.arithmetic`
(src/gnumeric/expression_evaluation.py lines 166-182).  Operands failing
`isinstance(a, (int, float))` — note that Python booleans pass this test —
raise the typed `VALUE` error.  `+`, `-`, `*` return an `int` when both
operands are `int`-like, else a float; `/` is true division, raising
`ZeroDivisionError` on a zero divisor (caught only at the top level); `^`
calls `math.pow`, converting `OverflowError` to the typed `NUM` error. -/
def arithmetic (a : PyVal) (op : ArithOp) (b : PyVal) : Except PyError PyVal :=
  if ¬ (a.isNumberInstance ∧ b.isNumberInstance) then .error (.evalErr .VALUE)
  else
    match op with
    | .add =>
      if a.isIntLike ∧ b.isIntLike then .ok (.int (a.toInt + b.toInt))
      else .ok (.float (a.toRat + b.toRat))
    | .sub =>
      if a.isIntLike ∧ b.isIntLike then .ok (.int (a.toInt - b.toInt))
      else .ok (.float (a.toRat - b.toRat))
    | .mul =>
      if a.isIntLike ∧ b.isIntLike then .ok (.int (a.toInt * b.toInt))
      else .ok (.float (a.toRat * b.toRat))
    | .div =>
      if b.toRat = 0 then .error .zeroDivision
      else .ok (.float (a.toRat / b.toRat))
    | .pow =>
      match math_pow a.toRat b.toRat with
      | .error .overflowErr => .error (.evalErr .NUM)
      | .error e => .error e
      | .ok r => .ok (.float r)

/-- Direct translation of `ExpressionEvaluator.concat`
(src/gnumeric/expression_evaluation.py lines 203-206): both operands are
rendered with `to_str` and the two texts are joined; no operand type is
rejected and the rule cannot fail. -/
def concat (a b : PyVal) : PyVal :=
  .str (to_str a ++ to_str b)

end ExpressionEvaluator

/-- The apostrophe character (code point 39). -/
def aposChar : Char := Char.ofNat 39

/-- Membership in the regex class `[A-Za-z]` (also the lark `LETTER`
terminal). -/
def isLetterChar (c : Char) : Bool :=
  decide ((65 ≤ c.toNat ∧ c.toNat ≤ 90) ∨ (97 ≤ c.toNat ∧ c.toNat ≤ 122))

/-- Membership in the regex class `\d` (also the lark `DIGIT` terminal). -/
def isDigitChar (c : Char) : Bool :=
  decide (48 ≤ c.toNat ∧ c.toNat ≤ 57)

/-- Membership in the regex character class `[A-Za-z0-9_ ]` used for sheet
names in `ExpressionEvaluator.atomic_string`. -/
def isSheetChar (c : Char) : Bool :=
  isLetterChar c || isDigitChar c || c = '_' || c = ' '

/-- Match of the optional sheet-qualifier group
`('?[A-Za-z0-9_ ]+'?!)?` of the reference regex at the start of the input:
an optional apostrophe, a maximal nonempty run of `[A-Za-z0-9_ ]`, an
optional apostrophe, then a literal `!`.  Because the character class
contains neither the apostrophe nor `!`, the backtracking regex engine has
at most this one way to match the group, so the match is deterministic.
Returns the captured group (including the `!`) and the remaining input. -/
def matchGroup1 (cs : List Char) : Option (List Char × List Char) :=
  let p1 : List Char × List Char :=
    match cs with
    | c :: t => if c = aposChar then ([c], t) else ([], cs)
    | [] => ([], [])
  let run := p1.2.takeWhile isSheetChar
  let rest2 := p1.2.dropWhile isSheetChar
  if run.isEmpty then Option.none
  else
    let p2 : List Char × List Char :=
      match rest2 with
      | c :: t => if c = aposChar then ([c], t) else ([], rest2)
      | [] => ([], [])
    match p2.2 with
    | c :: t => if c = '!' then some (p1.1 ++ run ++ p2.1 ++ [c], t) else Option.none
    | [] => Option.none

/-- Match of the column/row part `(\$?[A-Za-z]{1,3})(\$?\d{1,5})` of the
reference regex at the start of the input.  The greedy bounded repetitions
of a backtracking engine reduce to: the maximal run of letters must have
length 1 to 3 (a longer run can never be followed by a digit after at most
3 letters), and at least one digit must follow, of which at most 5 are
consumed.  Trailing input is NOT required to be empty — `re.match` only
anchors at the start.  Returns the two captured groups (each including its
optional `$`). -/
def matchColRow (cs : List Char) : Option (List Char × List Char) :=
  let p1 : List Char × List Char :=
    match cs with
    | c :: t => if c = '$' then ([c], t) else ([], cs)
    | [] => ([], [])
  let ls := p1.2.takeWhile isLetterChar
  let rest2 := p1.2.dropWhile isLetterChar
  if ls.length = 0 ∨ 3 < ls.length then Option.none
  else
    let p2 : List Char × List Char :=
      match rest2 with
      | c :: t => if c = '$' then ([c], t) else ([], rest2)
      | [] => ([], [])
    let ds := p2.2.takeWhile isDigitChar
    if ds.isEmpty then Option.none
    else some (p1.1 ++ ls, p2.1 ++ ds.take 5)

/-- Model of `re.match` with the reference pattern
`('?[A-Za-z0-9_ ]+'?!)?(\$?[A-Za-z]{1,3})(\$?\d{1,5})` from
`ExpressionEvaluator.atomic_string` (line 115): first try with the
optional sheet group, then (if the rest then fails) without it, exactly
the preference order of a backtracking engine on an optional greedy group.
Returns the three captured groups on success. -/
def reCellRefMatch (s : String) : Option (Option String × String × String) :=
  match matchGroup1 s.data with
  | some (g1, rest) =>
    match matchColRow rest with
    | some (c, r) => some (some (String.mk g1), String.mk c, String.mk r)
    | Option.none =>
      match matchColRow s.data with
      | some (c, r) => some (Option.none, String.mk c, String.mk r)
      | Option.none => Option.none
  | Option.none =>
    match matchColRow s.data with
    | some (c, r) => some (Option.none, String.mk c, String.mk r)
    | Option.none => Option.none

/-- Modelled from the spec: the collaborator-owned sparse cell grid of one
worksheet (§4.3, §6 of the spec; the `gnumeric.sheet` module is not under
src/).  Only the read surface consumed by the evaluator is modelled:
coordinates map to stored cell values. -/
structure Sheet where
  cells : List ((ℕ × ℕ) × PyVal)
deriving DecidableEq, Repr

/-- Modelled from the spec: the maximum allowed row index (65535) and
column index (255) of a sheet, as exercised by the repository's unit
tests for `sheet.cell`. -/
def maxAllowedRow : ℕ := 65535

/-- Modelled from the spec: maximum allowed column index. -/
def maxAllowedColumn : ℕ := 255

/-- Modelled from the spec: `get_cell(row, column, create=false) ->
Cell | absent` (§6).  An out-of-range coordinate or, with `create=false`,
an absent cell is the `absent` outcome (Python raises `IndexError`).  With
`create=true` an absent in-range cell is created empty; with
`create=false` the sheet is returned unchanged in every case. -/
def Sheet.getCell (s : Sheet) (r c : ℕ) (create : Bool) : Except Unit PyVal × Sheet :=
  if maxAllowedRow < r ∨ maxAllowedColumn < c then (.error (), s)
  else
    match s.cells.find? (fun p => p.1 == (r, c)) with
    | some p => (.ok p.2, s)
    | Option.none =>
      if create then (.ok .none, ⟨((r, c), .none) :: s.cells⟩) else (.error (), s)

/-- Modelled from the spec: the workbook's name-to-sheet table (§6
`lookup_sheet`; the `gnumeric.workbook` module is not under src/). -/
structure Workbook where
  sheets : List (String × Sheet)
deriving DecidableEq, Repr

/-- Modelled from the spec: `lookup_sheet(name) -> Sheet`, failing with a
not-found condition (Python `KeyError`) when no sheet has that name. -/
def Workbook.get_sheet_by_name (wb : Workbook) (name : String) : Option Sheet :=
  (wb.sheets.find? (fun p => p.1 == name)).map Prod.snd

/-- The evaluation context: the cell owning the formula, reduced to what
the evaluator actually reads from it — its worksheet and, through it, the
owning workbook (spec §3 EvaluationContext). -/
structure EvalCtx where
  workbook : Workbook
  ownSheet : Sheet
deriving DecidableEq, Repr

/-- Value of a decimal digit character. -/
def charToDigit (c : Char) : ℕ := c.toNat - 48

/-- Numeric value of a list of decimal digit characters (most significant
first). -/
def digitsToNat (cs : List Char) : ℕ :=
  cs.foldl (fun a c => 10 * a + charToDigit c) 0

/-- Uppercase of an ASCII letter. -/
def toUpperChar (c : Char) : Char :=
  if 97 ≤ c.toNat ∧ c.toNat ≤ 122 then Char.ofNat (c.toNat - 32) else c

/-- Modelled from the spec: `gnumeric.utils.coordinate_from_spreadsheet`
(not under src/): convert column letters / row digits, each optionally
prefixed with `$` (ignored), to a zero-based `(row, column)` pair (§4.3
step 2; unit test: `AE$18 ↦ (17, 30)`).  A row below 1 or a non-letter in
the column part raises `IndexError` (unit tests on `row_from_spreadsheet`
and `column_from_spreadsheet`). -/
def coordinate_from_spreadsheet (s : String) : Except Unit (ℕ × ℕ) :=
  let cs := s.data.filter (fun c => c ≠ '$')
  let ls := cs.takeWhile isLetterChar
  let ds := cs.dropWhile isLetterChar
  if ls.isEmpty ∨ ds.isEmpty ∨ ¬ (ds.all isDigitChar) then .error ()
  else
    let col := ls.foldl (fun acc c => 26 * acc + ((toUpperChar c).toNat - 64)) 0
    let row := digitsToNat ds
    if row = 0 then .error () else .ok (row - 1, col - 1)

namespace ExpressionEvaluator

/-- Direct translation of `ExpressionEvaluator.cell_lookup`
(src/gnumeric/expression_evaluation.py lines 191-201): resolve the sheet
(the context cell's own sheet when unqualified, else by name with
`KeyError` converted to the typed `REF` error), then request the cell at
the converted coordinate without creating it; an `IndexError` (from the
coordinate conversion or from an absent/out-of-range cell) yields the
numeric value 0; otherwise the stored cell value is returned as is. -/
def cell_lookup (ctx : EvalCtx) (ref_sheet : Option String) (ref_col ref_row : String) :
    Except PyError PyVal :=
  let sheetFound : Option Sheet :=
    match ref_sheet with
    | Option.none => some ctx.ownSheet
    | some nm => ctx.workbook.get_sheet_by_name nm
  match sheetFound with
  | Option.none => .error (.evalErr .REF)
  | some sheet =>
    match coordinate_from_spreadsheet (ref_col ++ ref_row) with
    | .error _ => .ok (.int 0)
    | .ok rc =>
      match (sheet.getCell rc.1 rc.2 false).1 with
      | .error _ => .ok (.int 0)
      | .ok v => .ok v

/-- Whether the string starts with an apostrophe. -/
def startsApos (s : String) : Bool :=
  match s.data with
  | c :: _ => c = aposChar
  | [] => false

/-- Whether the string ends with an apostrophe. -/
def endsApos (s : String) : Bool :=
  match s.data.getLast? with
  | some c => c = aposChar
  | Option.none => false

/-- Normalisation of the matched sheet group in
`ExpressionEvaluator.atomic_string` lines 118-121: `sheet[:-1]` strips the
trailing `!`; when the result both starts and ends with an apostrophe both
quotes are stripped (one-sided apostrophes are kept as part of the name). -/
def sheetNameOfGroup (g : Option String) : Option String :=
  match g with
  | Option.none => Option.none
  | some s0 =>
    let s := String.mk s0.data.dropLast
    if startsApos s ∧ endsApos s then some (String.mk (s.data.drop 1).dropLast)
    else some s

/-- The unwrapping step of `ExpressionEvaluator.atomic_string` lines
124-125: a looked-up value that is neither `None` nor an
`int`/`float`/`str` instance (booleans are `int` instances) is replaced by
its `.value` attribute — in the modelled value universe exactly the
shared-formula descriptor. -/
def unwrapValue (v : PyVal) : PyVal :=
  if v ≠ PyVal.none ∧ v.isIntFloatStrInstance = false then
    (match v with | .descriptor u => u | w => w)
  else v

/-- Direct translation of `ExpressionEvaluator.atomic_string`
(src/gnumeric/expression_evaluation.py lines 109-128): the exact tokens
`TRUE`/`FALSE` are boolean literals; otherwise the token is matched
against the cell-reference regex (a prefix match); on a match the sheet
group is normalised (`sheetNameOfGroup`) and the cell is looked up,
unwrapping a shared-formula descriptor to its `.value` (`unwrapValue`);
with no match the typed `NAME` error is raised. -/
def atomic_string (ctx : EvalCtx) (name : String) : Except PyError PyVal :=
  if name = "TRUE" then .ok (.bool true)
  else if name = "FALSE" then .ok (.bool false)
  else
    match reCellRefMatch name with
    | some (sheetG, col, row) =>
      (cell_lookup ctx (sheetNameOfGroup sheetG) col row).map unwrapValue
    | Option.none => .error (.evalErr .NAME)

end ExpressionEvaluator

/-- Model of Python `int(s)` restricted to the strings the evaluator can
feed it (lexer tokens and rendered values, which contain no whitespace or
underscores): an optional sign followed by a nonempty run of decimal
digits. -/
def pyIntParse (s : String) : Option ℤ :=
  match s.data with
  | [] => Option.none
  | c :: t =>
    if c = '+' then
      if t ≠ [] ∧ t.all isDigitChar then some (digitsToNat t : ℤ) else Option.none
    else if c = '-' then
      if t ≠ [] ∧ t.all isDigitChar then some (-(digitsToNat t : ℤ)) else Option.none
    else
      if (c :: t).all isDigitChar then some (digitsToNat (c :: t) : ℤ) else Option.none

/-- Exponent part of a float literal: empty, or `e`/`E`, an optional sign
and a nonempty digit run consuming the whole remaining input. -/
def parseExpPart (cs : List Char) : Option ℤ :=
  match cs with
  | [] => some 0
  | c :: t =>
    if c = 'e' ∨ c = 'E' then
      let p : Bool × List Char :=
        match t with
        | [] => (false, [])
        | d :: u => if d = '+' then (false, u) else if d = '-' then (true, u) else (false, d :: u)
      if p.2 ≠ [] ∧ p.2.all isDigitChar then
        some (if p.1 then -(digitsToNat p.2 : ℤ) else (digitsToNat p.2 : ℤ))
      else Option.none
    else Option.none

/-- Model of Python `float(s)` on decimal literals (the only float-literal
shape the grammar's `SIGNED_NUMBER` terminal admits): optional sign,
integer digits and/or a `.` fraction, optional exponent.  The value is the
exact rational the literal denotes; CPython would round it to the nearest
double, a representation detail outside this model (see the module
comment). -/
def pyFloatParse (s : String) : Option ℚ :=
  let p : Bool × List Char :=
    match s.data with
    | [] => (false, [])
    | c :: t => if c = '+' then (false, t) else if c = '-' then (true, t) else (false, c :: t)
  let ip := p.2.takeWhile isDigitChar
  let cs1 := p.2.dropWhile isDigitChar
  let cont : Option (ℚ × List Char) :=
    match cs1 with
    | [] => if ip.isEmpty then Option.none else some ((digitsToNat ip : ℚ), cs1)
    | c :: cs2 =>
      if c = '.' then
        let fp := cs2.takeWhile isDigitChar
        let cs3 := cs2.dropWhile isDigitChar
        if ip.isEmpty ∧ fp.isEmpty then Option.none
        else some ((digitsToNat ip : ℚ) + (digitsToNat fp : ℚ) / 10 ^ fp.length, cs3)
      else if ip.isEmpty then Option.none else some ((digitsToNat ip : ℚ), cs1)
  match cont with
  | Option.none => Option.none
  | some mr =>
    match parseExpPart mr.2 with
    | Option.none => Option.none
    | some e =>
      let v := mr.1 * (10 : ℚ) ^ e
      some (if p.1 then -v else v)

namespace ExpressionEvaluator

/-- Direct translation of `ExpressionEvaluator.number`
(src/gnumeric/expression_evaluation.py lines 97-101): try `int(val)`, and
on a `ValueError` fall back to `float(val)` (whose own `ValueError`, never
produced on grammar-shaped tokens, would propagate). -/
def number (tok : String) : Except PyError PyVal :=
  match pyIntParse tok with
  | some n => .ok (.int n)
  | Option.none =>
    match pyFloatParse tok with
    | some q => .ok (.float q)
    | Option.none => .error (.valueErr "could not convert string to float")

/-- Direct translation of `ExpressionEvaluator.string` (lines 103-104):
strip the first and last character (the surrounding quotes) of the
`ESCAPED_STRING` token; no unescaping is performed. -/
def string (tok : String) : PyVal :=
  .str (String.mk tok.data.tail.dropLast)

/-- Direct translation of `ExpressionEvaluator.error_ref` (lines
106-107): the literal `#REF!` atom always raises the typed `REF` error. -/
def error_ref : Except PyError PyVal :=
  .error (.evalErr .REF)

end ExpressionEvaluator

/-- CPython's `TypeError` message for `abs` called with `n` arguments. -/
def absArityMsg (n : ℕ) : String :=
  "abs() takes exactly one argument (" ++ natRepr n ++ " given)"

/-- CPython's `TypeError` message for a one-parameter lambda called with
`n ≥ 2` positional arguments. -/
def lenArityMsg (n : ℕ) : String :=
  "<lambda>() takes 1 positional argument but " ++ natRepr n ++ " were given"

/-- Model of the CPython builtin `abs` as registered in `function_map`:
exactly one argument (otherwise a `TypeError` whose message contains
`takes exactly`); a non-numeric argument raises `TypeError: bad operand
type for abs(): ...` (messages are CPython's own). -/
def pyAbs (args : List PyVal) : Except PyError PyVal :=
  match args with
  | [v] =>
    match v with
    | .bool b => .ok (.int (if b then 1 else 0))
    | .int n => .ok (.int |n|)
    | .float q => .ok (.float |q|)
    | .str _ => .error (.typeErr "bad operand type for abs(): 'str'")
    | .none => .error (.typeErr "bad operand type for abs(): 'NoneType'")
    | .descriptor _ => .error (.typeErr "bad operand type for abs(): 'ExpressionValue'")
  | _ => .error (.typeErr (absArityMsg args.length))

/-- Model of the registry entry `'len': lambda val: len(str(val))`.  Being
a Python-level lambda, a wrong argument count raises a `TypeError` whose
CPython message (`... positional argument... were given` or `missing 1
required positional argument`) contains neither `bad operand type` nor
`takes exactly`. -/
def pyLenOfStr (args : List PyVal) : Except PyError PyVal :=
  match args with
  | [v] => .ok (.int ((pyStr v).length : ℤ))
  | [] => .error (.typeErr "<lambda>() missing 1 required positional argument: 'val'")
  | _ => .error (.typeErr (lenArityMsg args.length))

/-- The module-level `function_map` registry
(src/gnumeric/expression_evaluation.py lines 33-36). -/
def function_map : List (String × (List PyVal → Except PyError PyVal)) :=
  [("abs", pyAbs), ("len", pyLenOfStr)]

/-- Whether the first list starts with the second (pattern) list. -/
def leadsWith : List Char → List Char → Bool
  | _, [] => true
  | [], _ :: _ => false
  | c :: cs, d :: ds => (c = d) && leadsWith cs ds

/-- Whether the pattern occurs as a contiguous sublist of the first list. -/
def containsSub : List Char → List Char → Bool
  | [], pat => leadsWith [] pat
  | c :: t, pat => leadsWith (c :: t) pat || containsSub t pat

namespace ExpressionEvaluator

/-- Direct translation of `ExpressionEvaluator.function`
(src/gnumeric/expression_evaluation.py lines 208-220): the lowercased name
is looked up in `function_map` (`KeyError` becomes the typed `NAME`
error); the callable is applied to the already-evaluated arguments; a
`TypeError` whose message starts with `bad operand type` becomes `VALUE`,
one whose message contains `takes exactly` becomes `NA`, and any other
failure from inside the callable is re-raised unmasked. -/
def function (name : String) (args : List PyVal) : Except PyError PyVal :=
  match function_map.find? (fun p => p.1 == pyLower name) with
  | Option.none => .error (.evalErr .NAME)
  | some entry =>
    match entry.2 args with
    | .ok v => .ok v
    | .error (.typeErr msg) =>
      if leadsWith msg.data ("bad operand type".data) then .error (.evalErr .VALUE)
      else if containsSub msg.data ("takes exactly".data) then .error (.evalErr .NA)
      else .error (.typeErr msg)
    | .error e => .error e

end ExpressionEvaluator

/-- Parse trees of the formula grammar (src/gnumeric/expression_evaluation.py
lines 39-80), with each inner node naming the transformer rule that
evaluates it.  Leaf nodes carry the matched token text exactly as the
transformer receives it (`stringLit` includes the surrounding quotes).
Parenthesised expressions are inlined by the grammar (`?atom`), so they
need no node. -/
inductive Expr where
  | number (tok : String)
  | stringLit (tok : String)
  | errorRef
  | atomicStr (tok : String)
  | logicalCmp (a : Expr) (op : LogicalOp) (b : Expr)
  | concatOp (a b : Expr)
  | arith (a : Expr) (op : ArithOp) (b : Expr)
  | funcCall (name : String) (args : List Expr)

mutual

/-- Bottom-up evaluation of a parse tree: the `Transformer.transform` walk
with the `ExpressionEvaluator` rules.  Children are fully evaluated left
to right before their parent's rule runs (lark transforms post-order and
every rule is strict); the first exception aborts the walk, as `lark`
wraps and re-raises the rule's exception. -/
def evalE (ctx : EvalCtx) : Expr → Except PyError PyVal
  | .number tok => ExpressionEvaluator.number tok
  | .stringLit tok => .ok (ExpressionEvaluator.string tok)
  | .errorRef => ExpressionEvaluator.error_ref
  | .atomicStr tok => ExpressionEvaluator.atomic_string ctx tok
  | .logicalCmp a op b => do
    let va ← evalE ctx a
    let vb ← evalE ctx b
    ExpressionEvaluator.logical va op vb
  | .concatOp a b => do
    let va ← evalE ctx a
    let vb ← evalE ctx b
    pure (ExpressionEvaluator.concat va vb)
  | .arith a op b => do
    let va ← evalE ctx a
    let vb ← evalE ctx b
    ExpressionEvaluator.arithmetic va op vb
  | .funcCall name args => do
    let vs ← evalArgs ctx args
    ExpressionEvaluator.function name vs

/-- Left-to-right evaluation of the argument subtrees of a function call. -/
def evalArgs (ctx : EvalCtx) : List Expr → Except PyError (List PyVal)
  | [] => .ok []
  | e :: rest => do
    let v ← evalE ctx e
    let vs ← evalArgs ctx rest
    pure (v :: vs)

end

/-- Result of the public entry point: either a value or a spreadsheet
error code (the enum member, never raised to the caller). -/
inductive EvalOutcome where
  | val (v : PyVal)
  | err (e : EvaluationError)
deriving DecidableEq, Repr

/-- Direct translation of the top-level `evaluate`
(src/gnumeric/expression_evaluation.py lines 226-242), starting from the
parse tree (the lark parsing step itself — string to tree — is outside the
evaluator and not modelled; a syntax error never reaches this function).
The transformer's exception is unwrapped from lark's `VisitError`: a
`ZeroDivisionError` becomes the returned `DIV0` code, a typed
`ExpressionEvaluationException` returns its error code, and anything else
is re-raised to the caller. -/
def evaluate (e : Expr) (ctx : EvalCtx) : Except PyError EvalOutcome :=
  match evalE ctx e with
  | .ok v => .ok (.val v)
  | .error .zeroDivision => .ok (.err .DIV0)
  | .error (.evalErr err) => .ok (.err err)
  | .error other => .error other

/-- Decidable equality for `Except`, needed to evaluate concrete runs of
the evaluator inside proofs. -/
instance {ε α : Type} [DecidableEq ε] [DecidableEq α] : DecidableEq (Except ε α) := fun x y =>
  match x, y with
  | .ok a, .ok b =>
    if h : a = b then .isTrue (by rw [h]) else .isFalse (by intro hh; injection hh; exact h (by assumption))
  | .error a, .error b =>
    if h : a = b then .isTrue (by rw [h]) else .isFalse (by intro hh; injection hh; exact h (by assumption))
  | .ok _, .error _ => .isFalse (by intro hh; exact Except.noConfusion hh)
  | .error _, .ok _ => .isFalse (by intro hh; exact Except.noConfusion hh)

/-- An evaluation context with an empty workbook and an empty owning
sheet, used for concrete runs. -/
def emptyEvalCtx : EvalCtx := ⟨⟨[]⟩, ⟨[]⟩⟩

/-- The spec's broad value categories for comparison (§4.2): integers and
floats form one numeric category; text and booleans are their own. -/
inductive Category where
  | numeric
  | text
  | boolean
deriving DecidableEq, Repr

/-- Category of a value; values outside the three categories (possible
only for collaborator-produced cell contents) have no category. -/
def categoryOf : PyVal → Option Category
  | .bool _ => some .boolean
  | .int _ => some .numeric
  | .float _ => some .numeric
  | .str _ => some .text
  | _ => Option.none

/-- The spec's fixed ordinal of each category (`{numeric: 0, text: 50,
boolean: 100}`). -/
def Category.ordinal : Category → ℤ
  | .numeric => 0
  | .text => 50
  | .boolean => 100

/-- Comparison semantics as the spec words them (§4.2 Logical comparison):
same broad category — native ordering, with text lowercased on both sides
first; different categories — the operator applied to the category
ordinals.  Defined (with junk value `false`) only when both operands have
a category, which is the hypothesis of the claim. -/
def logicalSpec (a b : PyVal) (op : LogicalOp) : Bool :=
  match categoryOf a, categoryOf b with
  | some ca, some cb =>
    if ca = cb then
      match a, b with
      | .str x, .str y =>
        applyCmp op (fun u v : String => pyStrLtChars u.data v.data) (fun u v => decide (u = v))
          (pyLower x) (pyLower y)
      | .bool x, .bool y =>
        applyCmp op (fun u v : Bool => decide (u.toNat < v.toNat)) (fun u v => decide (u = v)) x y
      | _, _ =>
        applyCmp op (fun u v : ℚ => decide (u < v)) (fun u v => decide (u = v)) a.toRat b.toRat
    else
      applyCmp op (fun u v : ℤ => decide (u < v)) (fun u v => decide (u = v)) ca.ordinal cb.ordinal
  | _, _ => false

/-- Full match of the claim's column/row pattern: an optional `$`, one to
three letters, an optional `$`, one to five digits, and nothing after
them.  Because the letter run and the digit run are maximal, a full match
exists exactly when this deterministic scan consumes the whole input. -/
def claimColRowFull (cs : List Char) : Bool :=
  let r1 : List Char := match cs with
    | c :: t => if c = '$' then t else cs
    | [] => []
  let ls := r1.takeWhile isLetterChar
  let r2 := r1.dropWhile isLetterChar
  if ls.length = 0 ∨ 3 < ls.length then false
  else
    let r3 : List Char := match r2 with
      | c :: t => if c = '$' then t else r2
      | [] => []
    let ds := r3.takeWhile isDigitChar
    let r4 := r3.dropWhile isDigitChar
    decide (1 ≤ ds.length ∧ ds.length ≤ 5 ∧ r4 = [])

/-- The claim's sheet-qualifier shapes, read literally from the claim: a
bare run of letters, or an apostrophe-quoted name. -/
def claimSheetOk (pre : List Char) : Bool :=
  (decide (pre ≠ []) && pre.all isLetterChar) ||
    (decide (2 ≤ pre.length) && decide (pre.head? = some aposChar) &&
      decide (pre.getLast? = some aposChar))

/-- The cell-reference pattern exactly as claim C2 words it: an optional
sheet qualifier (bare letters or an apostrophe-quoted name, followed by
`!`), then 1-3 column letters and 1-5 row digits, each optionally preceded
by `$` — matching the whole token. -/
def claimCellRefPattern (s : String) : Bool :=
  let cs := s.data
  claimColRowFull cs ||
    (List.range cs.length).any (fun i =>
      decide (cs.get? i = some '!') && claimSheetOk (cs.take i) &&
        claimColRowFull (cs.drop (i + 1)))

/-- Whether a token is a lark `SIGNED_NUMBER`: these are exactly the
strings Python `float` accepts among decimal literals, i.e. the domain of
`pyFloatParse`. -/
def isSignedNumberTok (s : String) : Bool :=
  (pyFloatParse s).isSome

/-- Interior scan of a lark `ESCAPED_STRING` token after the opening
quote: backslash escapes any next character; an unescaped quote must be
the final character. -/
def escapedInnerOk : List Char → Bool
  | [] => false
  | c :: t =>
    if c = '\x5c' then
      match t with
      | [] => false
      | _ :: u => escapedInnerOk u
    else if c = '"' then decide (t = [])
    else escapedInnerOk t

/-- Whether a token is a lark `ESCAPED_STRING` (double-quoted, interior
quotes escaped). -/
def isEscapedStringTok (s : String) : Bool :=
  match s.data with
  | c :: t => c = '"' && escapedInnerOk t
  | [] => false

/-- First-character class of the lark `ATOMIC_STR` terminal. -/
def isAtomicStart (c : Char) : Bool :=
  isLetterChar c || c = '$' || c = aposChar

/-- Continuation-character class of the lark `ATOMIC_STR` terminal. -/
def isAtomicCont (c : Char) : Bool :=
  c = '_' || isLetterChar c || isDigitChar c || c = '.' || c = '!' || c = '$' ||
    c = aposChar || c = ' '

/-- Whether a token is a lark `ATOMIC_STR`. -/
def isAtomicStrTok (s : String) : Bool :=
  match s.data with
  | c :: t => isAtomicStart c && t.all isAtomicCont
  | [] => false

/-- Modelled from the spec: re-parsing a rendered text "as a literal
inside a new formula" (§8 round-trip property).  The grammar's literal
atoms have disjoint leading-character classes, so a single token is lexed
deterministically: a `SIGNED_NUMBER` evaluates through the `number` rule,
an `ESCAPED_STRING` through the `string` rule, an `ATOMIC_STR` through
`atomic_string`; any other text is a syntax error (`Option.none` — the
spec keeps syntax failures distinct from evaluation errors). -/
def reparse_literal (ctx : EvalCtx) (s : String) : Option (Except PyError PyVal) :=
  if isSignedNumberTok s then some (ExpressionEvaluator.number s)
  else if isEscapedStringTok s then some (.ok (ExpressionEvaluator.string s))
  else if isAtomicStrTok s then some (ExpressionEvaluator.atomic_string ctx s)
  else Option.none

/-- Python `==` on the modelled values: numeric values (booleans included)
compare by exact value across subtypes, strings by content; the
shared-formula wrapper compares by object identity, which distinct model
values never share. -/
def pyEqB (a b : PyVal) : Bool :=
  if a.isNumberInstance && b.isNumberInstance then decide (a.toRat = b.toRat)
  else
    match a, b with
    | .str x, .str y => decide (x = y)
    | .none, .none => true
    | _, _ => false

/-- Decimal digit characters decode back to their value. -/
theorem charToDigit_digitChar {d : ℕ} (h : d < 10) :
    charToDigit (Nat.digitChar d) = d := by
  interval_cases d <;> decide

/-- Decimal digit characters are in the digit class. -/
theorem isDigitChar_digitChar {d : ℕ} (h : d < 10) :
    isDigitChar (Nat.digitChar d) = true := by
  interval_cases d <;> decide

/-- Every entry produced by the fuel-driven digit extractor is a base-10
digit. -/
theorem natDigitsAux_lt_10 : ∀ (fuel n : ℕ), ∀ d ∈ natDigitsAux fuel n, d < 10 := by
  intro fuel
  induction fuel with
  | zero => intro n d hd; simp [natDigitsAux] at hd
  | succ fuel ih =>
    intro n d hd
    unfold natDigitsAux at hd
    split at hd
    · simp at hd
    · rcases List.mem_cons.mp hd with rfl | hd
      · exact Nat.mod_lt _ (by norm_num)
      · exact ih _ _ hd

/-- The digit extractor recovers its input through `Nat.ofDigits` once it
has enough fuel. -/
theorem natDigitsAux_ofDigits : ∀ (fuel n : ℕ), n ≤ fuel →
    Nat.ofDigits 10 (natDigitsAux fuel n) = n := by
  intro fuel
  induction fuel with
  | zero => intro n hn; interval_cases n; simp [natDigitsAux, Nat.ofDigits]
  | succ fuel ih =>
    intro n hn
    unfold natDigitsAux
    split
    · simp [Nat.ofDigits]
      omega
    · rw [Nat.ofDigits_cons, ih (n / 10) (by omega)]
      omega

/-- A nonzero input yields at least one digit. -/
theorem natDigits_ne_nil {n : ℕ} (hn : n ≠ 0) : natDigits n ≠ [] := by
  unfold natDigits
  obtain ⟨m, rfl⟩ := Nat.exists_eq_succ_of_ne_zero hn
  unfold natDigitsAux
  simp

/-- Every character of a rendered natural number is a decimal digit. -/
theorem natRepr_all_digits (n : ℕ) : ∀ c ∈ (natRepr n).data, isDigitChar c = true := by
  intro c hc
  unfold natRepr at hc
  split at hc
  · have : ("0" : String).data = ['0'] := rfl
    rw [this] at hc
    simp at hc
    subst hc
    decide
  · simp only [String.mk] at hc
    rw [List.mem_reverse, List.mem_map] at hc
    obtain ⟨d, hd, rfl⟩ := hc
    exact isDigitChar_digitChar (natDigitsAux_lt_10 _ _ _ hd)

/-- A rendered natural number is never the empty string. -/
theorem natRepr_ne_nil (n : ℕ) : (natRepr n).data ≠ [] := by
  unfold natRepr
  split
  · decide
  · simp only [String.mk, ne_eq, List.reverse_eq_nil_iff, List.map_eq_nil_iff]
    exact natDigits_ne_nil (by assumption)

/-- The dot character is not a digit, so it never occurs in a rendered
integer. -/
theorem pyIntRepr_no_dot (n : ℤ) : '.' ∉ (pyIntRepr n).data := by
  intro hmem
  unfold pyIntRepr at hmem
  split at hmem
  · rw [String.data_append] at hmem
    rcases List.mem_append.mp hmem with h | h
    · have : ("-" : String).data = ['-'] := rfl
      rw [this] at h
      simp at h
    · have := natRepr_all_digits n.natAbs _ h
      simp [isDigitChar] at this
  · have := natRepr_all_digits n.natAbs _ hmem
    simp [isDigitChar] at this

/-- C7: for every pair of operand values `a` and `b` of any kind
(numbers and booleans included), `a & b` yields the left-to-right
concatenation of their canonical display texts (`to_str`), where an
integer-valued float renders as its integer (in particular with no
decimal point), booleans render as `TRUE`/`FALSE`, and every other value
is rendered by Python `str`; the rule imposes no type restriction and
cannot fail. -/
theorem concat_canonical_text (a b : PyVal) :
    ExpressionEvaluator.concat a b = .str (to_str a ++ to_str b) ∧
    (∀ q : ℚ, q.den = 1 →
      to_str (.float q) = pyIntRepr q.num ∧ '.' ∉ (to_str (.float q)).data) ∧
    to_str (.bool true) = "TRUE" ∧ to_str (.bool false) = "FALSE" ∧
    (∀ n : ℤ, to_str (.int n) = pyStr (.int n)) ∧
    (∀ s : String, to_str (.str s) = pyStr (.str s)) ∧
    to_str PyVal.none = pyStr PyVal.none := by
  refine ⟨rfl, ?_, rfl, rfl, fun n => rfl, fun s => rfl, rfl⟩
  intro q hq
  constructor
  · simp [to_str, hq, pyStr]
  · simp only [to_str, hq, if_pos]
    exact pyIntRepr_no_dot q.num

/-- Witness for C7 at concrete inputs. -/
theorem concat_canonical_text_witness :
    ExpressionEvaluator.concat (PyVal.int 1) (PyVal.int 2) = .str (to_str (PyVal.int 1) ++ to_str (PyVal.int 2)) ∧
    (5 : ℚ).den = 1 ∧ to_str (.float 5) = pyIntRepr (5 : ℚ).num := by
  refine ⟨(concat_canonical_text (PyVal.int 1) (PyVal.int 2)).1, by decide, ?_⟩
  exact ((concat_canonical_text (PyVal.int 1) (PyVal.int 2)).2.1 5 (by decide)).1

/-- C3 counterexample: the claim says a boolean operand makes arithmetic
fail with `VALUE`, but Python booleans pass the `isinstance(a, (int,
float))` test (`bool` subclasses `int`), so `TRUE + 1` evaluates to the
integer 2 rather than an error. -/
theorem arithmetic_boolean_counterexample :
    ExpressionEvaluator.arithmetic (PyVal.bool true) ArithOp.add (PyVal.int 1) = .ok (.int 2) ∧
    ExpressionEvaluator.arithmetic (PyVal.bool true) ArithOp.add (PyVal.int 1) ≠
      .error (.evalErr .VALUE) ∧
    evaluate (Expr.arith (Expr.atomicStr "TRUE") ArithOp.add (Expr.number "1")) emptyEvalCtx =
      .ok (.val (.int 2)) := by
  refine ⟨by decide, by decide, by decide⟩

/-- C3 (amended): an arithmetic operand that is not an `int`/`float`
instance — text, `None`, or a descriptor, but NOT a boolean, since Python
`bool` subclasses `int` — makes the operation fail with the typed `VALUE`
error; boolean operands are accepted and participate numerically as 1/0. -/
theorem arithmetic_type_gate_amended :
    (∀ (a b : PyVal) (op : ArithOp),
      ¬ (a.isNumberInstance = true ∧ b.isNumberInstance = true) →
      ExpressionEvaluator.arithmetic a op b = .error (.evalErr .VALUE)) ∧
    (∀ (s : String) (v : PyVal) (op : ArithOp),
      ExpressionEvaluator.arithmetic (.str s) op v = .error (.evalErr .VALUE) ∧
      ExpressionEvaluator.arithmetic v op (.str s) = .error (.evalErr .VALUE)) ∧
    (∀ (x : Bool) (n : ℤ),
      ExpressionEvaluator.arithmetic (.bool x) ArithOp.add (.int n) =
        .ok (.int ((if x then 1 else 0) + n))) := by
  refine ⟨?_, ?_, ?_⟩
  · intro a b op h
    simp only [ExpressionEvaluator.arithmetic, if_pos h]
  · intro s v op
    constructor
    · simp [ExpressionEvaluator.arithmetic, PyVal.isNumberInstance]
    · simp [ExpressionEvaluator.arithmetic, PyVal.isNumberInstance]
  · intro x n
    simp [ExpressionEvaluator.arithmetic, PyVal.isNumberInstance, PyVal.isIntLike, PyVal.toInt]

/-- Witness for C3's amended theorem at concrete inputs. -/
theorem arithmetic_type_gate_amended_witness :
    ExpressionEvaluator.arithmetic (PyVal.str "x") ArithOp.add (PyVal.int 1) =
      .error (.evalErr .VALUE) ∧
    ExpressionEvaluator.arithmetic (PyVal.bool true) ArithOp.add (PyVal.int 41) = .ok (.int 42) := by
  constructor
  · exact arithmetic_type_gate_amended.1 (PyVal.str "x") (PyVal.int 1) ArithOp.add (by decide)
  · simpa using arithmetic_type_gate_amended.2.2 true 41

/-- C6: for a division whose operands evaluate to numeric values with a
zero divisor, the arithmetic rule raises the runtime division fault
(`ZeroDivisionError`), not a typed `ExpressionEvaluationException`; the
fault propagates out of the tree walk, and the top-level `evaluate` is
what converts it into the returned `DIV0` code. -/
theorem division_by_zero_to_DIV0 (ea eb : Expr) (ctx : EvalCtx) (va vb : PyVal)
    (ha : evalE ctx ea = .ok va) (hb : evalE ctx eb = .ok vb)
    (hna : va.isNumberInstance = true) (hnb : vb.isNumberInstance = true)
    (hz : vb.toRat = 0) :
    ExpressionEvaluator.arithmetic va ArithOp.div vb = .error .zeroDivision ∧
    evalE ctx (Expr.arith ea ArithOp.div eb) = .error .zeroDivision ∧
    evaluate (Expr.arith ea ArithOp.div eb) ctx = .ok (.err .DIV0) := by
  have h1 : ExpressionEvaluator.arithmetic va ArithOp.div vb = .error .zeroDivision := by
    simp [ExpressionEvaluator.arithmetic, hna, hnb, hz]
  have h2 : evalE ctx (Expr.arith ea ArithOp.div eb) = .error .zeroDivision := by
    simp [evalE, ha, hb, h1, Bind.bind, Except.bind]
  exact ⟨h1, h2, by simp [evaluate, h2]⟩

/-- Witness for C6: `=7/0` yields `DIV0` through the top-level handler. -/
theorem division_by_zero_to_DIV0_witness :
    evaluate (Expr.arith (Expr.number "7") ArithOp.div (Expr.number "0")) emptyEvalCtx =
      .ok (.err .DIV0) :=
  (division_by_zero_to_DIV0 (Expr.number "7") (Expr.number "0") emptyEvalCtx
    (PyVal.int 7) (PyVal.int 0) rfl rfl rfl rfl rfl).2.2

/-- C5: cell-reference resolution — a qualified reference whose sheet
name is unknown to the workbook fails with the typed `REF` error; when the
target sheet (qualified or the context's own) exists but holds no cell at
the referenced coordinate, the reference evaluates to the number 0 rather
than an error; and a lookup with `create=false` never modifies the sheet
(the cell is not created). -/
theorem cell_lookup_protocol (ctx : EvalCtx) (nm col row : String) :
    (ctx.workbook.get_sheet_by_name nm = Option.none →
      ExpressionEvaluator.cell_lookup ctx (some nm) col row = .error (.evalErr .REF)) ∧
    (∀ (sheet : Sheet) (rc : ℕ × ℕ), ctx.workbook.get_sheet_by_name nm = some sheet →
      coordinate_from_spreadsheet (col ++ row) = .ok rc →
      (sheet.getCell rc.1 rc.2 false).1 = .error () →
      ExpressionEvaluator.cell_lookup ctx (some nm) col row = .ok (.int 0)) ∧
    (∀ rc : ℕ × ℕ, coordinate_from_spreadsheet (col ++ row) = .ok rc →
      (ctx.ownSheet.getCell rc.1 rc.2 false).1 = .error () →
      ExpressionEvaluator.cell_lookup ctx Option.none col row = .ok (.int 0)) ∧
    (∀ (s : Sheet) (r c : ℕ), (s.getCell r c false).2 = s) := by
  refine ⟨?_, ?_, ?_, ?_⟩
  · intro h
    simp [ExpressionEvaluator.cell_lookup, h]
  · intro sheet rc h1 h2 h3
    simp [ExpressionEvaluator.cell_lookup, h1, h2, h3]
  · intro rc h1 h2
    simp [ExpressionEvaluator.cell_lookup, h1, h2]
  · intro s r c
    unfold Sheet.getCell
    split
    · rfl
    · split <;> rfl

/-- A one-sheet workbook used as a concrete evaluation context. -/
def witnessSheet : Sheet := ⟨[((0, 0), PyVal.int 7)]⟩

/-- Concrete evaluation context owning `witnessSheet` in a workbook where
it is registered under the name `S`. -/
def witnessCtx : EvalCtx := ⟨⟨[("S", witnessSheet)]⟩, witnessSheet⟩

/-- Witness for C5: `OtherSheet!A1` with no such sheet yields `REF`;
`S!Z9999` (unpopulated) yields 0; the no-create lookup leaves the sheet
unchanged. -/
theorem cell_lookup_protocol_witness :
    ExpressionEvaluator.cell_lookup witnessCtx (some "OtherSheet") "A" "1" =
      .error (.evalErr .REF) ∧
    ExpressionEvaluator.cell_lookup witnessCtx (some "S") "Z" "9999" = .ok (.int 0) ∧
    (witnessSheet.getCell 9998 25 false).2 = witnessSheet := by
  refine ⟨?_, ?_, ?_⟩
  · exact (cell_lookup_protocol witnessCtx "OtherSheet" "A" "1").1 (by decide)
  · exact (cell_lookup_protocol witnessCtx "S" "Z" "9999").2.1 witnessSheet (9998, 25)
      (by decide) (by decide) (by decide)
  · exact (cell_lookup_protocol witnessCtx "S" "Z" "9999").2.2.2 witnessSheet 9998 25

/-- A lead match extends to any longer text. -/
theorem leadsWith_append_left (l p r : List Char) (h : leadsWith l p = true) :
    leadsWith (l ++ r) p = true := by
  induction p generalizing l with
  | nil => simp [leadsWith]
  | cons d ds ih =>
    cases l with
    | nil => simp [leadsWith] at h
    | cons c cs =>
      simp only [List.cons_append, leadsWith, Bool.and_eq_true] at h ⊢
      exact ⟨h.1, ih cs h.2⟩

/-- A lead mismatch that is decided within the available text persists
when more text is appended. -/
theorem leadsWith_false_append (l p r : List Char) (hlen : p.length ≤ l.length)
    (h : leadsWith l p = false) : leadsWith (l ++ r) p = false := by
  induction p generalizing l with
  | nil => simp [leadsWith] at h
  | cons d ds ih =>
    cases l with
    | nil => simp at hlen
    | cons c cs =>
      by_cases hc : c = d
      · simp only [leadsWith, hc, decide_True, Bool.true_and] at h
        simp only [List.cons_append, leadsWith, hc, decide_True, Bool.true_and]
        exact ih cs (by simpa using hlen) h
      · simp [List.cons_append, leadsWith, hc]

/-- An occurrence of a pattern survives appending more text. -/
theorem containsSub_append_left (l p r : List Char) (h : containsSub l p = true) :
    containsSub (l ++ r) p = true := by
  induction l with
  | nil =>
    cases p with
    | nil =>
      cases r with
      | nil => decide
      | cons c t => simp [containsSub, leadsWith]
    | cons d ds => simp [containsSub, leadsWith] at h
  | cons c cs ih =>
    simp only [containsSub, Bool.or_eq_true] at h
    rcases h with h | h
    · simp only [List.cons_append, containsSub, Bool.or_eq_true]
      exact Or.inl (leadsWith_append_left _ _ _ h)
    · simp only [List.cons_append, containsSub, Bool.or_eq_true]
      exact Or.inr (ih h)

/-- Every character of a lead-matched pattern occurs in the text. -/
theorem mem_of_leadsWith (l p : List Char) (h : leadsWith l p = true) :
    ∀ c ∈ p, c ∈ l := by
  induction p generalizing l with
  | nil => simp
  | cons d ds ih =>
    cases l with
    | nil => simp [leadsWith] at h
    | cons c cs =>
      simp only [leadsWith, Bool.and_eq_true, decide_eq_true_eq] at h
      intro e he
      rcases List.mem_cons.mp he with rfl | he
      · exact h.1 ▸ List.mem_cons_self _ _
      · exact List.mem_cons_of_mem _ (ih cs h.2 e he)

/-- Every character of a matched pattern occurs in the text. -/
theorem mem_of_containsSub (l p : List Char) (h : containsSub l p = true) :
    ∀ c ∈ p, c ∈ l := by
  induction l with
  | nil =>
    cases p with
    | nil => simp
    | cons d ds => simp [containsSub, leadsWith] at h
  | cons c cs ih =>
    simp only [containsSub, Bool.or_eq_true] at h
    rcases h with h | h
    · exact mem_of_leadsWith _ _ h
    · intro e he
      exact List.mem_cons_of_mem _ (ih h e he)

/-- The CPython arity message of `abs` does not start with `bad operand
type`, whatever the argument count reads. -/
theorem absArityMsg_not_bad (n : ℕ) :
    leadsWith (absArityMsg n).data ("bad operand type" : String).data = false := by
  unfold absArityMsg
  rw [String.data_append, String.data_append, List.append_assoc]
  exact leadsWith_false_append _ _ _ (by decide) (by decide)

/-- The CPython arity message of `abs` contains `takes exactly`, whatever
the argument count reads. -/
theorem absArityMsg_takes_exactly (n : ℕ) :
    containsSub (absArityMsg n).data ("takes exactly" : String).data = true := by
  unfold absArityMsg
  rw [String.data_append, String.data_append, List.append_assoc]
  exact containsSub_append_left _ _ _ (by decide)

/-- The CPython arity message of the `len` lambda does not start with `bad
operand type`. -/
theorem lenArityMsg_not_bad (n : ℕ) :
    leadsWith (lenArityMsg n).data ("bad operand type" : String).data = false := by
  unfold lenArityMsg
  rw [String.data_append, String.data_append, List.append_assoc]
  exact leadsWith_false_append _ _ _ (by decide) (by decide)

/-- The CPython arity message of the `len` lambda does not contain `takes
exactly`: its variable middle is all digits and no fixed part holds an
`x`. -/
theorem lenArityMsg_not_takes_exactly (n : ℕ) :
    containsSub (lenArityMsg n).data ("takes exactly" : String).data = false := by
  unfold lenArityMsg
  rw [String.data_append, String.data_append, List.append_assoc]
  by_contra hc
  rw [Bool.not_eq_false] at hc
  have hx := mem_of_containsSub _ _ hc 'x' (by decide)
  rcases List.mem_append.mp hx with h | h
  · revert h
    decide
  · rcases List.mem_append.mp h with h | h
    · exact absurd (natRepr_all_digits n _ h) (by decide)
    · revert h
      decide

/-- Dispatch shape of `ExpressionEvaluator.function` once the registry
lookup is known. -/
theorem function_dispatch_eq (name : String)
    (entry : String × (List PyVal → Except PyError PyVal)) (args : List PyVal)
    (hfind : function_map.find? (fun p => p.1 == pyLower name) = some entry) :
    ExpressionEvaluator.function name args =
      (match entry.2 args with
       | .ok v => .ok v
       | .error (.typeErr msg) =>
         if leadsWith msg.data ("bad operand type" : String).data then .error (.evalErr .VALUE)
         else if containsSub msg.data ("takes exactly" : String).data then .error (.evalErr .NA)
         else .error (.typeErr msg)
       | .error e => .error e) := by
  unfold ExpressionEvaluator.function
  rw [hfind]

/-- C4 (amended): function dispatch lowercases the name and looks it up
in the registry, failing with `NAME` on an unknown name; an argument of
the wrong type for the underlying operation (signalled by a `TypeError`
starting `bad operand type`, as the builtin `abs` raises) yields `VALUE`;
a wrong argument count yields `NA` only when the callable reports it with
a `takes exactly` message — true of the C-level builtin `abs` — while the
Python-level `len` lambda reports a wrong count with a message carrying
neither marker, so that fault, like any other failure from inside the
callable, is re-raised unmasked. -/
theorem function_dispatch_amended :
    (∀ (name : String) (args : List PyVal),
      pyLower name ≠ "abs" → pyLower name ≠ "len" →
      ExpressionEvaluator.function name args = .error (.evalErr .NAME)) ∧
    (∀ args : List PyVal, args.length ≠ 1 →
      ExpressionEvaluator.function "abs" args = .error (.evalErr .NA)) ∧
    (∀ s : String, ExpressionEvaluator.function "abs" [.str s] = .error (.evalErr .VALUE)) ∧
    (∀ (v w : PyVal) (t : List PyVal),
      ExpressionEvaluator.function "len" (v :: w :: t) =
        .error (.typeErr (lenArityMsg (v :: w :: t).length))) ∧
    (∀ (name : String) (entry : String × (List PyVal → Except PyError PyVal)) (args : List PyVal)
        (msg : String),
      function_map.find? (fun p => p.1 == pyLower name) = some entry →
      entry.2 args = .error (.typeErr msg) →
      leadsWith msg.data ("bad operand type" : String).data = false →
      containsSub msg.data ("takes exactly" : String).data = false →
      ExpressionEvaluator.function name args = .error (.typeErr msg)) := by
  refine ⟨?_, ?_, ?_, ?_, ?_⟩
  · intro name args h1 h2
    have e1 : (("abs" : String) == pyLower name) = false := beq_eq_false_iff_ne.mpr (Ne.symm h1)
    have e2 : (("len" : String) == pyLower name) = false := beq_eq_false_iff_ne.mpr (Ne.symm h2)
    simp [ExpressionEvaluator.function, function_map, List.find?, e1, e2]
  · intro args h
    rcases args with _ | ⟨v, _ | ⟨w, t⟩⟩
    · decide
    · simp at h
    · have key : ExpressionEvaluator.function "abs" (v :: w :: t) =
          (if leadsWith (absArityMsg (v :: w :: t).length).data ("bad operand type" : String).data
           then .error (.evalErr .VALUE)
           else if containsSub (absArityMsg (v :: w :: t).length).data ("takes exactly" : String).data
           then .error (.evalErr .NA)
           else .error (.typeErr (absArityMsg (v :: w :: t).length))) := rfl
      rw [key, absArityMsg_not_bad, absArityMsg_takes_exactly]
      simp
  · intro s
    have key : ExpressionEvaluator.function "abs" [PyVal.str s] =
        (if leadsWith ("bad operand type for abs(): 'str'" : String).data
            ("bad operand type" : String).data
         then .error (.evalErr .VALUE)
         else if containsSub ("bad operand type for abs(): 'str'" : String).data
            ("takes exactly" : String).data
         then .error (.evalErr .NA)
         else .error (.typeErr "bad operand type for abs(): 'str'")) := rfl
    rw [key]
    decide
  · intro v w t
    have key : ExpressionEvaluator.function "len" (v :: w :: t) =
        (if leadsWith (lenArityMsg (v :: w :: t).length).data ("bad operand type" : String).data
         then .error (.evalErr .VALUE)
         else if containsSub (lenArityMsg (v :: w :: t).length).data ("takes exactly" : String).data
         then .error (.evalErr .NA)
         else .error (.typeErr (lenArityMsg (v :: w :: t).length))) := rfl
    rw [key, lenArityMsg_not_bad, lenArityMsg_not_takes_exactly]
    simp
  · intro name entry args msg hfind happ hbad hta
    rw [function_dispatch_eq name entry args hfind, happ]
    simp [hbad, hta]

/-- Witness for C4's amended theorem at concrete inputs: unknown name,
`abs` with two arguments, `abs` on text, `len` with two arguments. -/
theorem function_dispatch_amended_witness :
    ExpressionEvaluator.function "unknownfunc" [PyVal.int 1] = .error (.evalErr .NAME) ∧
    ExpressionEvaluator.function "abs" [PyVal.int 1, PyVal.int 2] = .error (.evalErr .NA) ∧
    ExpressionEvaluator.function "abs" [PyVal.str "x"] = .error (.evalErr .VALUE) ∧
    ExpressionEvaluator.function "len" [PyVal.int 1, PyVal.int 2] =
      .error (.typeErr (lenArityMsg 2)) := by
  refine ⟨?_, ?_, ?_, ?_⟩
  · exact function_dispatch_amended.1 "unknownfunc" [PyVal.int 1] (by decide) (by decide)
  · exact function_dispatch_amended.2.1 [PyVal.int 1, PyVal.int 2] (by decide)
  · exact function_dispatch_amended.2.2.1 "x"
  · simpa using function_dispatch_amended.2.2.2.1 (PyVal.int 1) (PyVal.int 2) []

/-- C4 counterexample: the claim says a wrong argument count yields the
`NA` error, but calling the registered `len` (a Python-level lambda) with
two arguments raises a `TypeError` whose CPython message lacks the `takes
exactly` marker, so the dispatch re-raises it and the whole evaluation
aborts with an unhandled fault instead of returning `NA`. -/
theorem function_arity_counterexample :
    ExpressionEvaluator.function "len" [PyVal.int 1, PyVal.int 2] =
      .error (.typeErr "<lambda>() takes 1 positional argument but 2 were given") ∧
    ExpressionEvaluator.function "len" [PyVal.int 1, PyVal.int 2] ≠ .error (.evalErr .NA) ∧
    evaluate (Expr.funcCall "len" [Expr.number "1", Expr.number "2"]) emptyEvalCtx =
      .error (.typeErr "<lambda>() takes 1 positional argument but 2 were given") := by
  refine ⟨by decide, by decide, by decide⟩

/-- C1: for every comparison `a OP b` whose operands lie in the three
broad categories (numeric — integers and floats together — text,
boolean), the implemented rule agrees with the spec's description
(`logicalSpec`): same category compares natively with text lowercased on
both sides first; different categories compare the fixed ordinals
`{numeric: 0, text: 50, boolean: 100}`, so numeric < text < boolean. -/
theorem logical_matches_spec_categories (a b : PyVal) (op : LogicalOp)
    (ha : (categoryOf a).isSome = true) (hb : (categoryOf b).isSome = true) :
    ExpressionEvaluator.logical a op b = .ok (.bool (logicalSpec a b op)) := by
  cases a <;> cases b <;>
    first
      | rfl
      | (exfalso; simp [categoryOf] at ha hb)

/-- Witness for C1 at concrete inputs: `1 < "a"` (cross category,
ordinals), `"ABC" = "abc"` (case-insensitive text), `"a" < TRUE`
(text < boolean). -/
theorem logical_matches_spec_categories_witness :
    ExpressionEvaluator.logical (PyVal.int 1) LogicalOp.lt (PyVal.str "a") =
      .ok (.bool (logicalSpec (PyVal.int 1) (PyVal.str "a") LogicalOp.lt)) ∧
    logicalSpec (PyVal.int 1) (PyVal.str "a") LogicalOp.lt = true ∧
    ExpressionEvaluator.logical (PyVal.str "ABC") LogicalOp.eq (PyVal.str "abc") =
      .ok (.bool (logicalSpec (PyVal.str "ABC") (PyVal.str "abc") LogicalOp.eq)) ∧
    logicalSpec (PyVal.str "ABC") (PyVal.str "abc") LogicalOp.eq = true ∧
    ExpressionEvaluator.logical (PyVal.str "a") LogicalOp.lt (PyVal.bool true) =
      .ok (.bool (logicalSpec (PyVal.str "a") (PyVal.bool true) LogicalOp.lt)) ∧
    logicalSpec (PyVal.str "a") (PyVal.bool true) LogicalOp.lt = true := by
  refine ⟨?_, by decide, ?_, by decide, ?_, by decide⟩
  · exact logical_matches_spec_categories (PyVal.int 1) (PyVal.str "a") LogicalOp.lt
      (by decide) (by decide)
  · exact logical_matches_spec_categories (PyVal.str "ABC") (PyVal.str "abc") LogicalOp.eq
      (by decide) (by decide)
  · exact logical_matches_spec_categories (PyVal.str "a") (PyVal.bool true) LogicalOp.lt
      (by decide) (by decide)

/-- C8: for numeric operands (integer subcase; floats are modelled
exactly, see module comment), `a ^ b` computes the power and yields the
`NUM` error exactly when the result leaves the representable double
range, the conversion of `OverflowError` performed by the arithmetic
rule's `try`/`except` around `math.pow`; otherwise the float power is
returned.  In particular `=2^1000000000` yields `NUM` (witness). -/
theorem pow_overflow_NUM (ea eb : Expr) (ctx : EvalCtx) (a b : ℤ)
    (ha : evalE ctx ea = .ok (.int a)) (hb : evalE ctx eb = .ok (.int b))
    (hb0 : 0 ≤ b)
    (haF : |(a : ℚ)| < floatOverflowBound) (hbF : |(b : ℚ)| < floatOverflowBound) :
    (floatOverflowBound ≤ |(a : ℚ) ^ b| →
      evaluate (Expr.arith ea ArithOp.pow eb) ctx = .ok (.err .NUM)) ∧
    (|(a : ℚ) ^ b| < floatOverflowBound →
      evaluate (Expr.arith ea ArithOp.pow eb) ctx = .ok (.val (.float ((a : ℚ) ^ b)))) := by
  have hden : ((b : ℚ)).den = 1 := Rat.den_intCast b
  have hnum : ((b : ℚ)).num = b := Rat.num_intCast b
  have hc1 : ¬ (floatOverflowBound ≤ |(a : ℚ)| ∨ floatOverflowBound ≤ |(b : ℚ)|) := by
    push_neg
    exact ⟨haF, hbF⟩
  have hc2 : ¬ ((a : ℚ) = 0 ∧ (b : ℚ) < 0) := by
    rintro ⟨-, hneg⟩
    have h0 : (0 : ℚ) ≤ (b : ℚ) := by exact_mod_cast hb0
    linarith
  have hshape : math_pow ((a : ℚ)) ((b : ℚ)) =
      (if floatOverflowBound ≤ |(a : ℚ) ^ b| then .error .overflowErr
       else .ok ((a : ℚ) ^ b)) := by
    unfold math_pow
    rw [if_neg hc1, if_neg hc2, if_pos hden, hnum]
  constructor
  · intro hov
    have hmp : math_pow ((a : ℚ)) ((b : ℚ)) = .error .overflowErr := by
      rw [hshape, if_pos hov]
    have harith : ExpressionEvaluator.arithmetic (.int a) ArithOp.pow (.int b) =
        .error (.evalErr .NUM) := by
      simp only [ExpressionEvaluator.arithmetic, PyVal.isNumberInstance, PyVal.toRat, hmp]
      simp
    have heval : evalE ctx (Expr.arith ea ArithOp.pow eb) = .error (.evalErr .NUM) := by
      simp [evalE, ha, hb, harith, Bind.bind, Except.bind]
    simp [evaluate, heval]
  · intro hlt
    have hmp : math_pow ((a : ℚ)) ((b : ℚ)) = .ok ((a : ℚ) ^ b) := by
      rw [hshape, if_neg (not_le.mpr hlt)]
    have harith : ExpressionEvaluator.arithmetic (.int a) ArithOp.pow (.int b) =
        .ok (.float ((a : ℚ) ^ b)) := by
      simp only [ExpressionEvaluator.arithmetic, PyVal.isNumberInstance, PyVal.toRat, hmp]
      simp
    have heval : evalE ctx (Expr.arith ea ArithOp.pow eb) = .ok (.float ((a : ℚ) ^ b)) := by
      simp [evalE, ha, hb, harith, Bind.bind, Except.bind]
    simp [evaluate, heval]

/-- Witness for C8: `=2^1000000000` yields the `NUM` error (the exact
power exceeds the double range, shown by monotonicity rather than by
computing it). -/
theorem pow_overflow_NUM_witness :
    evaluate (Expr.arith (Expr.number "2") ArithOp.pow (Expr.number "1000000000")) emptyEvalCtx =
      .ok (.err .NUM) := by
  have hpow : |(((2 : ℤ) : ℚ)) ^ (1000000000 : ℤ)| = (2 : ℚ) ^ (1000000000 : ℕ) := by
    have hcast : ((1000000000 : ℕ) : ℤ) = (1000000000 : ℤ) := by norm_num
    push_cast
    rw [← hcast, zpow_natCast]
    rw [abs_of_nonneg (by positivity)]
  have hov : floatOverflowBound ≤ |(((2 : ℤ) : ℚ)) ^ (1000000000 : ℤ)| := by
    rw [hpow]
    unfold floatOverflowBound
    exact pow_le_pow_right₀ (by norm_num) (by norm_num)
  exact (pow_overflow_NUM (Expr.number "2") (Expr.number "1000000000") emptyEvalCtx 2 1000000000
    rfl rfl (by norm_num) (by norm_num [floatOverflowBound])
    (by norm_num [floatOverflowBound])).1 hov

/-- A letter is not the apostrophe. -/
theorem letter_ne_apos {c : Char} (h : isLetterChar c = true) : ¬ (c = aposChar) := by
  intro he
  subst he
  exact absurd h (by decide)

/-- A letter is not the dollar sign. -/
theorem letter_ne_dollar {c : Char} (h : isLetterChar c = true) : ¬ (c = '$') := by
  intro he
  subst he
  exact absurd h (by decide)

/-- A digit is not the dollar sign. -/
theorem digit_ne_dollar {c : Char} (h : isDigitChar c = true) : ¬ (c = '$') := by
  intro he
  subst he
  exact absurd h (by decide)

/-- The digit and letter classes are disjoint. -/
theorem digit_not_letter {c : Char} (h : isDigitChar c = true) : isLetterChar c = false := by
  cases hl : isLetterChar c
  · rfl
  · exfalso
    simp [isDigitChar] at h
    simp [isLetterChar] at hl
    omega

/-- Letters belong to the sheet-name class. -/
theorem letter_isSheet {c : Char} (h : isLetterChar c = true) : isSheetChar c = true := by
  simp [isSheetChar, h]

/-- Digits belong to the sheet-name class. -/
theorem digit_isSheet {c : Char} (h : isDigitChar c = true) : isSheetChar c = true := by
  simp [isSheetChar, h]

/-- A maximal run over an append splits at the first failing character. -/
theorem takeWhile_append_split (p : Char → Bool) :
    ∀ (L D : List Char), (∀ c ∈ L, p c = true) → (∀ d, D.head? = some d → p d = false) →
    (L ++ D).takeWhile p = L ∧ (L ++ D).dropWhile p = D := by
  intro L
  induction L with
  | nil =>
    intro D _ hD
    cases D with
    | nil => simp
    | cons d t =>
      have := hD d rfl
      simp [List.takeWhile, List.dropWhile, this]
  | cons c L ih =>
    intro D hL hD
    have hc : p c = true := hL c (List.mem_cons_self _ _)
    have hrec := ih D (fun x hx => hL x (List.mem_cons_of_mem _ hx)) hD
    simp [List.takeWhile, List.dropWhile, hc, hrec.1, hrec.2]

/-- A run over a list satisfying the test everywhere consumes it whole. -/
theorem takeWhile_all (p : Char → Bool) (l : List Char) (h : ∀ c ∈ l, p c = true) :
    l.takeWhile p = l ∧ l.dropWhile p = [] := by
  simpa using takeWhile_append_split p l [] (by simpa using h) (by intro d hd; simp at hd)

/-- The reference regex matches a bare token made of 1-3 letters followed
by 1-5 digits, capturing the letters as the column and the digits as the
row, with no sheet group. -/
theorem reCellRefMatch_bare_colrow (L D : List Char)
    (hL : ∀ c ∈ L, isLetterChar c = true) (hD : ∀ c ∈ D, isDigitChar c = true)
    (hL1 : 1 ≤ L.length) (hL3 : L.length ≤ 3) (hD1 : 1 ≤ D.length) (hD5 : D.length ≤ 5) :
    reCellRefMatch (String.mk (L ++ D)) = some (Option.none, String.mk L, String.mk D) := by
  rcases L with _ | ⟨c, L'⟩
  · simp at hL1
  rcases D with _ | ⟨d, D'⟩
  · simp at hD1
  have hcl : isLetterChar c = true := hL c (by simp)
  have hdd : isDigitChar d = true := hD d (by simp)
  have hg1 : matchGroup1 ((c :: L') ++ (d :: D')) = Option.none := by
    have hsheet : ∀ x ∈ (c :: L') ++ (d :: D'), isSheetChar x = true := by
      intro x hx
      rcases List.mem_append.mp hx with h | h
      · exact letter_isSheet (hL x h)
      · exact digit_isSheet (hD x h)
    have ht := (takeWhile_all isSheetChar _ hsheet).1
    have hd2 := (takeWhile_all isSheetChar _ hsheet).2
    simp only [matchGroup1, List.cons_append]
    rw [if_neg (letter_ne_apos hcl)]
    simp only [List.cons_append] at ht hd2
    simp [ht, hd2]
  have hcolrow : matchColRow ((c :: L') ++ (d :: D')) = some (c :: L', d :: D') := by
    have hsplit := takeWhile_append_split isLetterChar (c :: L') (d :: D') hL
      (by intro x hx; simp at hx; subst hx; exact digit_not_letter hdd)
    have hdall := (takeWhile_all isDigitChar (d :: D') hD).1
    simp only [matchColRow, List.cons_append]
    rw [if_neg (letter_ne_dollar hcl)]
    simp only [List.cons_append] at hsplit
    rw [hsplit.1, hsplit.2]
    rw [if_neg (by omega : ¬ ((c :: L').length = 0 ∨ 3 < (c :: L').length))]
    have hdol : (d = '$') = False := by simp [digit_ne_dollar hdd]
    simp [hdol, hdall, List.take_of_length_le (by simpa using hD5)]
  show reCellRefMatch (String.mk ((c :: L') ++ (d :: D'))) = _
  unfold reCellRefMatch
  simp only [String.mk]
  rw [hg1, hcolrow]

/-- A nonempty all-letter token never matches the reference regex (no
digits follow the letter run). -/
theorem reCellRefMatch_all_letters (s : String) (hne : s.data ≠ [])
    (hall : ∀ c ∈ s.data, isLetterChar c = true) : reCellRefMatch s = Option.none := by
  obtain ⟨c, t, hct⟩ : ∃ c t, s.data = c :: t := by
    cases hs : s.data with
    | nil => exact absurd hs hne
    | cons c t => exact ⟨c, t, rfl⟩
  have hcl : isLetterChar c = true := hall c (by rw [hct]; simp)
  have hsheet : ∀ x ∈ s.data, isSheetChar x = true := fun x hx => letter_isSheet (hall x hx)
  have htk := (takeWhile_all isSheetChar s.data hsheet).1
  have hdk := (takeWhile_all isSheetChar s.data hsheet).2
  have htl := (takeWhile_all isLetterChar s.data hall).1
  have hdl := (takeWhile_all isLetterChar s.data hall).2
  have hg1 : matchGroup1 s.data = Option.none := by
    rw [hct] at htk hdk ⊢
    simp only [matchGroup1]
    rw [if_neg (letter_ne_apos hcl)]
    simp [htk, hdk, hct]
  have hcr : matchColRow s.data = Option.none := by
    rw [hct] at htl hdl ⊢
    simp only [matchColRow]
    rw [if_neg (letter_ne_dollar hcl)]
    by_cases h3 : 3 < (c :: t).length
    · simp [htl, hdl, h3]
    · simp [htl, hdl, h3, List.takeWhile]
  unfold reCellRefMatch
  rw [hg1, hcr]

/-- C2 (amended): a bare token resolves in order — the exact tokens
`TRUE`/`FALSE` are boolean literals; otherwise it is matched against the
reference regex as a PREFIX (`re.match` does not anchor the end, so
trailing characters are ignored), whose sheet qualifier is an optional
apostrophe, a nonempty run of letters, digits, underscores or spaces, an
optional apostrophe, and `!` (quotes stripped only when present on both
sides); a match resolves via the cell-lookup protocol with one level of
shared-formula descriptor unwrapped to its `.value`; otherwise the typed
`NAME` error is raised.  The last conjunct verifies the regex on the
claim's core shape: 1-3 column letters then 1-5 row digits. -/
theorem atomic_string_resolution_order (ctx : EvalCtx) (s : String) :
    ExpressionEvaluator.atomic_string ctx "TRUE" = .ok (.bool true) ∧
    ExpressionEvaluator.atomic_string ctx "FALSE" = .ok (.bool false) ∧
    (∀ (g : Option String) (col row : String), s ≠ "TRUE" → s ≠ "FALSE" →
      reCellRefMatch s = some (g, col, row) →
      ExpressionEvaluator.atomic_string ctx s =
        (ExpressionEvaluator.cell_lookup ctx (ExpressionEvaluator.sheetNameOfGroup g) col
          row).map ExpressionEvaluator.unwrapValue) ∧
    (s ≠ "TRUE" → s ≠ "FALSE" → reCellRefMatch s = Option.none →
      ExpressionEvaluator.atomic_string ctx s = .error (.evalErr .NAME)) ∧
    (∀ v : PyVal, ExpressionEvaluator.unwrapValue (PyVal.descriptor v) = v) ∧
    (∀ v : PyVal, v.isIntFloatStrInstance = true ∨ v = PyVal.none →
      ExpressionEvaluator.unwrapValue v = v) ∧
    (∀ L D : List Char,
      (∀ c ∈ L, isLetterChar c = true) → (∀ c ∈ D, isDigitChar c = true) →
      1 ≤ L.length → L.length ≤ 3 → 1 ≤ D.length → D.length ≤ 5 →
      reCellRefMatch (String.mk (L ++ D)) = some (Option.none, String.mk L, String.mk D)) := by
  refine ⟨rfl, rfl, ?_, ?_, fun v => rfl, ?_, reCellRefMatch_bare_colrow⟩
  · intro g col row h1 h2 hm
    unfold ExpressionEvaluator.atomic_string
    rw [if_neg h1, if_neg h2, hm]
  · intro h1 h2 hm
    unfold ExpressionEvaluator.atomic_string
    rw [if_neg h1, if_neg h2, hm]
  · intro v hv
    rcases hv with hv | rfl
    · cases v <;> simp_all [ExpressionEvaluator.unwrapValue, PyVal.isIntFloatStrInstance]
    · rfl

/-- Witness for C2's amended theorem: `B2` with no sheet resolves through
cell lookup (absent cell, hence 0) and a quoted-sheet reference with a
descriptor cell unwraps to its value. -/
theorem atomic_string_resolution_order_witness :
    ExpressionEvaluator.atomic_string emptyEvalCtx "TRUE" = .ok (.bool true) ∧
    ExpressionEvaluator.atomic_string emptyEvalCtx "B2" =
      (ExpressionEvaluator.cell_lookup emptyEvalCtx
        (ExpressionEvaluator.sheetNameOfGroup Option.none) "B" "2").map
        ExpressionEvaluator.unwrapValue ∧
    ExpressionEvaluator.atomic_string emptyEvalCtx "hello" = .error (.evalErr .NAME) ∧
    reCellRefMatch (String.mk (['B'] ++ ['2'])) = some (Option.none, String.mk ['B'], String.mk ['2']) := by
  refine ⟨(atomic_string_resolution_order emptyEvalCtx "B2").1, ?_, ?_, ?_⟩
  · exact (atomic_string_resolution_order emptyEvalCtx "B2").2.2.1 Option.none "B" "2"
      (by decide) (by decide) (by decide)
  · exact (atomic_string_resolution_order emptyEvalCtx "hello").2.2.2.1
      (by decide) (by decide)
      (reCellRefMatch_all_letters "hello" (by decide) (by decide))
  · exact (atomic_string_resolution_order emptyEvalCtx "B2").2.2.2.2.2.2 ['B'] ['2']
      (by decide) (by decide) (by decide) (by decide) (by decide) (by decide)

/-- C2 counterexample: the claim describes the pattern as 1-3 column
letters and 1-5 row digits making up the (whole) token, under which `A1X`
is not a reference and should fail with `NAME`; the code's `re.match` is
a prefix match, so `A1X` resolves as a reference to `A1` (here an absent
cell, evaluating to 0) instead of raising `NAME`. -/
theorem atomic_string_claim_pattern_counterexample :
    claimCellRefPattern "A1X" = false ∧
    "A1X" ≠ "TRUE" ∧ "A1X" ≠ "FALSE" ∧
    ExpressionEvaluator.atomic_string emptyEvalCtx "A1X" = .ok (.int 0) ∧
    ExpressionEvaluator.atomic_string emptyEvalCtx "A1X" ≠ .error (.evalErr .NAME) := by
  refine ⟨by decide, by decide, by decide, by decide, by decide⟩

theorem foldr_natDigitsAux (fuel : ℕ) : ∀ n : ℕ, n ≤ fuel →
    List.foldr (fun d acc => 10 * acc + d) 0 (natDigitsAux fuel n) = n := by
  induction fuel with
  | zero => intro n hn; interval_cases n; simp [natDigitsAux]
  | succ fuel ih =>
    intro n hn
    unfold natDigitsAux
    split
    · simp
      omega
    · rw [List.foldr_cons, ih (n / 10) (by omega)]
      omega

theorem foldr_charToDigit (l : List ℕ) (hl : ∀ d ∈ l, d < 10) :
    List.foldr (fun d acc => 10 * acc + charToDigit (Nat.digitChar d)) 0 l =
    List.foldr (fun d acc => 10 * acc + d) 0 l := by
  induction l with
  | nil => rfl
  | cons d t ih =>
    simp only [List.foldr_cons]
    rw [charToDigit_digitChar (hl d (List.mem_cons_self _ _)),
      ih (fun x hx => hl x (List.mem_cons_of_mem _ hx))]

theorem digitsToNat_natRepr (n : ℕ) : digitsToNat (natRepr n).data = n := by
  unfold natRepr
  split
  · subst_vars
    decide
  · show digitsToNat (((natDigits n).map Nat.digitChar).reverse) = n
    unfold digitsToNat
    rw [List.foldl_reverse, List.foldr_map]
    exact (foldr_charToDigit _ (natDigitsAux_lt_10 _ _)).trans
      (foldr_natDigitsAux n n le_rfl)

theorem digit_ne_plus {c : Char} (h : isDigitChar c = true) : ¬ (c = '+') := by
  intro he; subst he; exact absurd h (by decide)

theorem digit_ne_minus {c : Char} (h : isDigitChar c = true) : ¬ (c = '-') := by
  intro he; subst he; exact absurd h (by decide)

theorem digit_ne_dot {c : Char} (h : isDigitChar c = true) : ¬ (c = '.') := by
  intro he; subst he; exact absurd h (by decide)

theorem pyIntParse_natRepr (m : ℕ) : pyIntParse (natRepr m) = some (m : ℤ) := by
  obtain ⟨c, t, hct⟩ : ∃ c t, (natRepr m).data = c :: t := by
    cases hs : (natRepr m).data with
    | nil => exact absurd hs (natRepr_ne_nil m)
    | cons c t => exact ⟨c, t, rfl⟩
  have hall : (natRepr m).data.all isDigitChar = true :=
    List.all_eq_true.mpr (natRepr_all_digits m)
  have hc : isDigitChar c = true := natRepr_all_digits m c (by rw [hct]; simp)
  unfold pyIntParse
  rw [hct]
  split
  · next heq => simp at heq
  · next c2 t2 heq =>
      injection heq with h1 h2
      subst h1
      subst h2
      rw [if_neg (digit_ne_plus hc), if_neg (digit_ne_minus hc)]
      rw [hct] at hall
      rw [if_pos hall]
      have hdn := digitsToNat_natRepr m
      rw [hct] at hdn
      rw [hdn]

theorem pyIntParse_pyIntRepr (n : ℤ) : pyIntParse (pyIntRepr n) = some n := by
  unfold pyIntRepr
  split
  · have hdata : (("-" ++ natRepr n.natAbs : String)).data = '-' :: (natRepr n.natAbs).data := by
      rw [String.data_append]
      rfl
    unfold pyIntParse
    rw [hdata]
    split
    · next heq => simp at heq
    · next c2 t2 heq =>
        injection heq with h1 h2
        subst h1
        subst h2
        rw [if_neg (by decide), if_pos rfl]
        rw [if_pos ⟨natRepr_ne_nil _, List.all_eq_true.mpr (natRepr_all_digits _)⟩]
        rw [digitsToNat_natRepr]
        congr 1
        omega
  · rw [pyIntParse_natRepr]
    congr 1
    omega

theorem pyFloatParse_natRepr (m : ℕ) : pyFloatParse (natRepr m) = some (m : ℚ) := by
  obtain ⟨c, t, hct⟩ : ∃ c t, (natRepr m).data = c :: t := by
    cases hs : (natRepr m).data with
    | nil => exact absurd hs (natRepr_ne_nil m)
    | cons c t => exact ⟨c, t, rfl⟩
  have hc : isDigitChar c = true := natRepr_all_digits m c (by rw [hct]; simp)
  have htk := (takeWhile_all isDigitChar (natRepr m).data (natRepr_all_digits m)).1
  have hdk := (takeWhile_all isDigitChar (natRepr m).data (natRepr_all_digits m)).2
  rw [hct] at htk hdk
  have hplus : (c = '+') = False := by simp [digit_ne_plus hc]
  have hminus : (c = '-') = False := by simp [digit_ne_minus hc]
  have hdn := digitsToNat_natRepr m
  rw [hct] at hdn
  simp [pyFloatParse, hct, hplus, hminus, htk, hdk, hdn, parseExpPart]

theorem pyFloatParse_pyIntRepr (n : ℤ) : pyFloatParse (pyIntRepr n) = some ((n : ℤ) : ℚ) := by
  unfold pyIntRepr
  split
  · have hdata : (("-" ++ natRepr n.natAbs : String)).data = '-' :: (natRepr n.natAbs).data := by
      rw [String.data_append]
      rfl
    have htk := (takeWhile_all isDigitChar (natRepr n.natAbs).data (natRepr_all_digits _)).1
    have hdk := (takeWhile_all isDigitChar (natRepr n.natAbs).data (natRepr_all_digits _)).2
    have hne : ¬ (natRepr n.natAbs).data.isEmpty = true := by
      cases hs : (natRepr n.natAbs).data with
      | nil => exact absurd hs (natRepr_ne_nil _)
      | cons c t => simp
    have hdn := digitsToNat_natRepr n.natAbs
    simp [pyFloatParse, hdata, htk, hdk, hne, hdn, parseExpPart]
    exact_mod_cast (by omega : -((n.natAbs : ℤ)) = n)
  · next hge =>
      rw [pyFloatParse_natRepr]
      congr 1
      rw [Int.cast_natAbs]
      exact_mod_cast abs_of_nonneg (not_lt.mp hge)

theorem digitsToNat_replicate_zero (j : ℕ) (l : List Char) :
    digitsToNat (List.replicate j '0' ++ l) = digitsToNat l := by
  unfold digitsToNat
  rw [List.foldl_append]
  congr 1
  induction j with
  | zero => rfl
  | succ j ih => simpa [List.replicate_succ, charToDigit] using ih

theorem natDigitsAux_length_le (fuel : ℕ) : ∀ n k : ℕ, n ≤ fuel → n < 10 ^ k →
    (natDigitsAux fuel n).length ≤ k := by
  induction fuel with
  | zero => intro n k hn _; interval_cases n; simp [natDigitsAux]
  | succ fuel ih =>
    intro n k hn hk
    unfold natDigitsAux
    split
    · simp
    · rcases k with _ | k
      · omega
      · have hdiv : n / 10 < 10 ^ k := by
          rw [Nat.div_lt_iff_lt_mul (by norm_num)]
          calc n < 10 ^ (k + 1) := hk
          _ = 10 ^ k * 10 := by ring
        simpa using Nat.succ_le_succ (ih (n / 10) k (by omega) hdiv)

theorem natRepr_length_le {R k : ℕ} (hk : 1 ≤ k) (hR : R < 10 ^ k) :
    (natRepr R).data.length ≤ k := by
  unfold natRepr
  split
  · simpa using hk
  · show (((natDigits R).map Nat.digitChar).reverse).length ≤ k
    simp only [List.length_reverse, List.length_map]
    exact natDigitsAux_length_le R R k le_rfl hR

theorem zero_digit : isDigitChar '0' = true := by decide

theorem fracRepr_shape (q : ℚ)
    (hsm : q.den = 2 ^ factorExp 2 q.den * 5 ^ factorExp 5 q.den) :
    pyFloatFracRepr q =
      (if q.num < 0 then "-" else "") ++
        natRepr ((q.num.natAbs * (10 ^ max (factorExp 2 q.den) (factorExp 5 q.den) / q.den)) /
          10 ^ max (factorExp 2 q.den) (factorExp 5 q.den)) ++ "." ++
        (String.mk (List.replicate
            (max (factorExp 2 q.den) (factorExp 5 q.den) -
              (natRepr ((q.num.natAbs * (10 ^ max (factorExp 2 q.den) (factorExp 5 q.den) / q.den)) %
                10 ^ max (factorExp 2 q.den) (factorExp 5 q.den))).length) '0') ++
          natRepr ((q.num.natAbs * (10 ^ max (factorExp 2 q.den) (factorExp 5 q.den) / q.den)) %
            10 ^ max (factorExp 2 q.den) (factorExp 5 q.den))) := by
  simp only [pyFloatFracRepr]
  rw [if_pos hsm]

set_option maxRecDepth 8192 in
theorem pyFloatParse_decimal_pos (I R k : ℕ) (hk : 1 ≤ k) (hR : R < 10 ^ k) :
    pyFloatParse (natRepr I ++ "." ++
      (String.mk (List.replicate (k - (natRepr R).length) '0') ++ natRepr R)) =
      some ((I : ℚ) + (R : ℚ) / 10 ^ k) := by
  have hFl_digits : ∀ c ∈ List.replicate (k - (natRepr R).length) '0' ++ (natRepr R).data,
      isDigitChar c = true := by
    intro c hc
    rcases List.mem_append.mp hc with h | h
    · rw [List.eq_of_mem_replicate h]
      decide
    · exact natRepr_all_digits R c h
  have hip := takeWhile_append_split isDigitChar (natRepr I).data
    ('.' :: (List.replicate (k - (natRepr R).length) '0' ++ (natRepr R).data))
    (natRepr_all_digits I) (by intro d hd; injection hd with h; subst h; decide)
  have hfp := takeWhile_all isDigitChar _ hFl_digits
  have hdnI := digitsToNat_natRepr I
  have hdnF : digitsToNat (List.replicate (k - (natRepr R).length) '0' ++ (natRepr R).data) = R := by
    rw [digitsToNat_replicate_zero, digitsToNat_natRepr]
  have hlen : (List.replicate (k - (natRepr R).length) '0' ++ (natRepr R).data).length = k := by
    have hle : (natRepr R).data.length ≤ k := natRepr_length_le hk hR
    have hsl : (natRepr R).length = (natRepr R).data.length := rfl
    rw [List.length_append, List.length_replicate]
    omega
  obtain ⟨c, tI, hct⟩ : ∃ c t, (natRepr I).data = c :: t := by
    cases hs : (natRepr I).data with
    | nil => exact absurd hs (natRepr_ne_nil _)
    | cons c t => exact ⟨c, t, rfl⟩
  have hc : isDigitChar c = true := natRepr_all_digits I c (by rw [hct]; simp)
  rw [hct] at hip hdnI
  simp only [List.cons_append] at hip
  have hdata : ((natRepr I ++ "." ++
      (String.mk (List.replicate (k - (natRepr R).length) '0') ++ natRepr R)) : String).data
      = c :: (tI ++ '.' ::
        (List.replicate (k - (natRepr R).length) '0' ++ (natRepr R).data)) := by
    rw [String.data_append, String.data_append, String.data_append, hct]
    have hdot : ("." : String).data = ['.'] := rfl
    rw [hdot]
    simp [List.append_assoc]
  have hstr : (natRepr I ++ "." ++
      (String.mk (List.replicate (k - (natRepr R).length) '0') ++ natRepr R) : String)
      = ⟨c :: (tI ++ '.' ::
          (List.replicate (k - (natRepr R).length) '0' ++ (natRepr R).data))⟩ :=
    congrArg String.mk hdata
  rw [hstr]
  simp only [pyFloatParse]
  simp only [digit_ne_plus hc, digit_ne_minus hc, if_false, ite_false, hip.1, hip.2,
    hfp.1, hfp.2, hdnI, hdnF, hlen, parseExpPart]
  simp

set_option maxRecDepth 8192 in
theorem pyFloatParse_decimal_neg (I R k : ℕ) (hk : 1 ≤ k) (hR : R < 10 ^ k) :
    pyFloatParse ("-" ++ natRepr I ++ "." ++
      (String.mk (List.replicate (k - (natRepr R).length) '0') ++ natRepr R)) =
      some (-((I : ℚ) + (R : ℚ) / 10 ^ k)) := by
  have hFl_digits : ∀ c ∈ List.replicate (k - (natRepr R).length) '0' ++ (natRepr R).data,
      isDigitChar c = true := by
    intro c hc
    rcases List.mem_append.mp hc with h | h
    · rw [List.eq_of_mem_replicate h]
      decide
    · exact natRepr_all_digits R c h
  have hip := takeWhile_append_split isDigitChar (natRepr I).data
    ('.' :: (List.replicate (k - (natRepr R).length) '0' ++ (natRepr R).data))
    (natRepr_all_digits I) (by intro d hd; injection hd with h; subst h; decide)
  have hfp := takeWhile_all isDigitChar _ hFl_digits
  have hdnI := digitsToNat_natRepr I
  have hdnF : digitsToNat (List.replicate (k - (natRepr R).length) '0' ++ (natRepr R).data) = R := by
    rw [digitsToNat_replicate_zero, digitsToNat_natRepr]
  have hlen : (List.replicate (k - (natRepr R).length) '0' ++ (natRepr R).data).length = k := by
    have hle : (natRepr R).data.length ≤ k := natRepr_length_le hk hR
    have hsl : (natRepr R).length = (natRepr R).data.length := rfl
    rw [List.length_append, List.length_replicate]
    omega
  have hipne : ¬ (natRepr I).data.isEmpty = true := by
    cases hs : (natRepr I).data with
    | nil => exact absurd hs (natRepr_ne_nil _)
    | cons c t => simp
  have hdata : (("-" ++ natRepr I ++ "." ++
      (String.mk (List.replicate (k - (natRepr R).length) '0') ++ natRepr R)) : String).data
      = '-' :: ((natRepr I).data ++ '.' ::
        (List.replicate (k - (natRepr R).length) '0' ++ (natRepr R).data)) := by
    rw [String.data_append, String.data_append, String.data_append]
    have hdot : ("." : String).data = ['.'] := rfl
    have hmin : ("-" : String).data = ['-'] := rfl
    rw [hdot, hmin]
    simp [List.append_assoc]
  have hstr : ("-" ++ natRepr I ++ "." ++
      (String.mk (List.replicate (k - (natRepr R).length) '0') ++ natRepr R) : String)
      = ⟨'-' :: ((natRepr I).data ++ '.' ::
          (List.replicate (k - (natRepr R).length) '0' ++ (natRepr R).data))⟩ :=
    congrArg String.mk hdata
  rw [hstr]
  simp only [pyFloatParse]
  have hm1 : ¬ (('-' : Char) = '+') := by decide
  simp [hm1, hip.1, hip.2, hfp.1, hfp.2, hdnI, hdnF, hlen, parseExpPart, hipne]

theorem all_digits_false_of_dot {l : List Char} (hl : '.' ∈ l) :
    l.all isDigitChar = false := by
  cases hall : l.all isDigitChar
  · rfl
  · exact absurd (List.all_eq_true.mp hall '.' hl) (by decide)

theorem pyIntParse_of_dot (s : String) (hdot : '.' ∈ s.data) :
    pyIntParse s = Option.none := by
  cases hs : s.data with
  | nil =>
    rw [hs] at hdot
    simp at hdot
  | cons c t =>
    rw [hs] at hdot
    unfold pyIntParse
    rw [hs]
    split
    · next heq => simp at heq
    · next c2 t2 heq =>
      injection heq with h1 h2
      subst h1
      subst h2
      by_cases hcp : c = '+'
      · rw [if_pos hcp]
        have hdt : '.' ∈ t := by
          rcases List.mem_cons.mp hdot with h | h
          · exact absurd h.symm (by rw [hcp]; decide)
          · exact h
        rw [if_neg]
        rintro ⟨-, hall⟩
        rw [all_digits_false_of_dot hdt] at hall
        exact Bool.false_ne_true hall
      · rw [if_neg hcp]
        by_cases hcm : c = '-'
        · rw [if_pos hcm]
          have hdt : '.' ∈ t := by
            rcases List.mem_cons.mp hdot with h | h
            · exact absurd h.symm (by rw [hcm]; decide)
            · exact h
          rw [if_neg]
          rintro ⟨-, hall⟩
          rw [all_digits_false_of_dot hdt] at hall
          exact Bool.false_ne_true hall
        · rw [if_neg hcm, if_neg]
          rw [all_digits_false_of_dot hdot]
          exact Bool.false_ne_true

theorem div_mod_decimal (mN K den nab : ℕ) (hden : den ≠ 0) (hdvd : den ∣ 10 ^ K)
    (hm : mN = nab * (10 ^ K / den)) :
    ((mN / 10 ^ K : ℕ) : ℚ) + ((mN % 10 ^ K : ℕ) : ℚ) / 10 ^ K = (nab : ℚ) / den := by
  have h10 : ((10 : ℚ)) ^ K ≠ 0 := by positivity
  have hd0 : ((den : ℚ)) ≠ 0 := by exact_mod_cast hden
  have hmc : ((mN : ℕ) : ℚ) = ((mN / 10 ^ K : ℕ) : ℚ) * 10 ^ K + ((mN % 10 ^ K : ℕ) : ℚ) := by
    conv_lhs => rw [← Nat.div_add_mod mN (10 ^ K)]
    push_cast
    ring
  have hsum : ((mN / 10 ^ K : ℕ) : ℚ) + ((mN % 10 ^ K : ℕ) : ℚ) / 10 ^ K
      = ((mN : ℕ) : ℚ) / 10 ^ K := by
    rw [hmc]
    field_simp
  rw [hsum, hm]
  push_cast [Nat.cast_div hdvd hd0]
  field_simp
  ring

theorem fracRepr_k_pos (q : ℚ) (hden : q.den ≠ 1)
    (hsm : q.den = 2 ^ factorExp 2 q.den * 5 ^ factorExp 5 q.den) :
    1 ≤ max (factorExp 2 q.den) (factorExp 5 q.den) := by
  by_contra h
  push_neg at h
  have ha0 : factorExp 2 q.den = 0 := by omega
  have hb0 : factorExp 5 q.den = 0 := by omega
  rw [ha0, hb0] at hsm
  simp at hsm
  exact hden hsm

theorem fracRepr_dvd (q : ℚ)
    (hsm : q.den = 2 ^ factorExp 2 q.den * 5 ^ factorExp 5 q.den) :
    q.den ∣ 10 ^ max (factorExp 2 q.den) (factorExp 5 q.den) := by
  have h10 : (10 : ℕ) ^ max (factorExp 2 q.den) (factorExp 5 q.den) =
      2 ^ max (factorExp 2 q.den) (factorExp 5 q.den) *
      5 ^ max (factorExp 2 q.den) (factorExp 5 q.den) := by
    rw [← Nat.mul_pow]
  rw [h10]
  conv_lhs => rw [hsm]
  exact Nat.mul_dvd_mul (pow_dvd_pow 2 (le_max_left _ _)) (pow_dvd_pow 5 (le_max_right _ _))

theorem empty_string_append (s : String) : "" ++ s = s := by
  cases s
  rfl

theorem pyFloatParse_fracRepr (q : ℚ) (hden : q.den ≠ 1)
    (hsm : q.den = 2 ^ factorExp 2 q.den * 5 ^ factorExp 5 q.den) :
    pyFloatParse (pyFloatFracRepr q) = some q := by
  have hk1 := fracRepr_k_pos q hden hsm
  have hdvd := fracRepr_dvd q hsm
  have hR : (q.num.natAbs * (10 ^ max (factorExp 2 q.den) (factorExp 5 q.den) / q.den)) %
      10 ^ max (factorExp 2 q.den) (factorExp 5 q.den) <
      10 ^ max (factorExp 2 q.den) (factorExp 5 q.den) := Nat.mod_lt _ (by positivity)
  have hval := div_mod_decimal
    (q.num.natAbs * (10 ^ max (factorExp 2 q.den) (factorExp 5 q.den) / q.den))
    (max (factorExp 2 q.den) (factorExp 5 q.den)) q.den q.num.natAbs q.den_nz hdvd rfl
  have hshape := fracRepr_shape q hsm
  by_cases hneg : q.num < 0
  · rw [if_pos hneg] at hshape
    rw [hshape, pyFloatParse_decimal_neg _ _ _ hk1 hR]
    congr 1
    have habs : |(q.num : ℚ)| = -(q.num : ℚ) := abs_of_neg (by exact_mod_cast hneg)
    rw [hval, Int.cast_natAbs, Int.cast_abs, habs, neg_div, neg_neg]
    exact Rat.num_div_den q
  · rw [if_neg hneg, empty_string_append] at hshape
    rw [hshape, pyFloatParse_decimal_pos _ _ _ hk1 hR]
    congr 1
    have habs : |(q.num : ℚ)| = (q.num : ℚ) := abs_of_nonneg (by exact_mod_cast not_lt.mp hneg)
    rw [hval, Int.cast_natAbs, Int.cast_abs, habs]
    exact Rat.num_div_den q

theorem letter_ne_plus {c : Char} (h : isLetterChar c = true) : ¬ (c = '+') := by
  intro he
  subst he
  exact absurd h (by decide)

theorem letter_ne_minus {c : Char} (h : isLetterChar c = true) : ¬ (c = '-') := by
  intro he
  subst he
  exact absurd h (by decide)

theorem letter_ne_dot {c : Char} (h : isLetterChar c = true) : ¬ (c = '.') := by
  intro he
  subst he
  exact absurd h (by decide)

theorem letter_ne_quote {c : Char} (h : isLetterChar c = true) : ¬ (c = '"') := by
  intro he
  subst he
  exact absurd h (by decide)

theorem letter_not_digit {c : Char} (h : isLetterChar c = true) : isDigitChar c = false := by
  cases hd : isDigitChar c
  · rfl
  · exfalso
    simp [isDigitChar] at hd
    simp [isLetterChar] at h
    omega

theorem pyFloatParse_all_letters (s : String) (hne : s.data ≠ [])
    (hall : ∀ c ∈ s.data, isLetterChar c = true) : pyFloatParse s = Option.none := by
  obtain ⟨c, t, hct⟩ : ∃ c t, s.data = c :: t := by
    cases hs : s.data with
    | nil => exact absurd hs hne
    | cons c t => exact ⟨c, t, rfl⟩
  have hcl : isLetterChar c = true := hall c (by rw [hct]; simp)
  have hstr : s = ⟨c :: t⟩ := congrArg String.mk hct
  rw [hstr]
  simp only [pyFloatParse]
  simp [letter_ne_plus hcl, letter_ne_minus hcl, letter_ne_dot hcl, letter_not_digit hcl,
    List.takeWhile, List.dropWhile]

theorem dot_mem_shape (s t : String) : '.' ∈ (s ++ "." ++ t).data := by
  rw [String.data_append, String.data_append]
  refine List.mem_append.mpr (Or.inl (List.mem_append.mpr (Or.inr ?_)))
  decide

theorem pyIntParse_fracRepr (q : ℚ)
    (hsm : q.den = 2 ^ factorExp 2 q.den * 5 ^ factorExp 5 q.den) :
    pyIntParse (pyFloatFracRepr q) = Option.none := by
  apply pyIntParse_of_dot
  rw [fracRepr_shape q hsm]
  exact dot_mem_shape _ _

theorem number_pyIntRepr (n : ℤ) :
    ExpressionEvaluator.number (pyIntRepr n) = .ok (.int n) := by
  simp [ExpressionEvaluator.number, pyIntParse_pyIntRepr n]

theorem number_fracRepr (q : ℚ) (hden : q.den ≠ 1)
    (hsm : q.den = 2 ^ factorExp 2 q.den * 5 ^ factorExp 5 q.den) :
    ExpressionEvaluator.number (pyFloatFracRepr q) = .ok (.float q) := by
  simp [ExpressionEvaluator.number, pyIntParse_fracRepr q hsm,
    pyFloatParse_fracRepr q hden hsm]

/-- C9 (amended): rendering a value with `to_str` and re-parsing the text
as a single literal in a new formula round-trips for numbers and booleans,
but NOT for text.  Integers and non-integer floats (with the
decimal-representable denominators doubles have) re-read to the identical
value; an integer-valued float renders via `int` and re-reads as an `int`,
which is `==`-equal to the original float in Python but not the same
object shape; a boolean renders as `TRUE`/`FALSE` and re-reads as a
boolean through the `atomic_string` rule; a purely alphabetic text other
than `TRUE`/`FALSE` renders to itself but re-reads as a failed cell/name
lookup — the typed `NAME` error, not the original string value. -/
theorem display_roundtrip_amended (ctx : EvalCtx) (n : ℤ) (b : Bool) (p q : ℚ) (s : String)
    (hp : p.den = 1)
    (hq : q.den ≠ 1) (hqs : q.den = 2 ^ factorExp 2 q.den * 5 ^ factorExp 5 q.den)
    (hne : s.data ≠ []) (hall : ∀ c ∈ s.data, isLetterChar c = true)
    (hT : s ≠ "TRUE") (hF : s ≠ "FALSE") :
    reparse_literal ctx (to_str (.int n)) = some (.ok (.int n)) ∧
    reparse_literal ctx (to_str (.bool b)) = some (.ok (.bool b)) ∧
    (reparse_literal ctx (to_str (.float p)) = some (.ok (.int p.num)) ∧
      pyEqB (.int p.num) (.float p) = true) ∧
    reparse_literal ctx (to_str (.float q)) = some (.ok (.float q)) ∧
    reparse_literal ctx (to_str (.str s)) = some (.error (.evalErr .NAME)) := by
  refine ⟨?_, ?_, ⟨?_, ?_⟩, ?_, ?_⟩
  · have hts : to_str (.int n) = pyIntRepr n := rfl
    rw [hts]
    simp [reparse_literal, isSignedNumberTok, pyFloatParse_pyIntRepr, number_pyIntRepr]
  · cases b <;> rfl
  · have hts : to_str (.float p) = pyIntRepr p.num := by
      simp [to_str, hp, pyStr]
    rw [hts]
    simp [reparse_literal, isSignedNumberTok, pyFloatParse_pyIntRepr, number_pyIntRepr]
  · have hnum : ((p.num : ℚ)) = p := by
      conv_rhs => rw [← Rat.num_div_den p]
      rw [hp]
      norm_num
    simp [pyEqB, PyVal.isNumberInstance, PyVal.toRat, hnum]
  · have hts : to_str (.float q) = pyFloatFracRepr q := by
      simp [to_str, hq, pyStr, pyFloatRepr]
    rw [hts]
    simp [reparse_literal, isSignedNumberTok, pyFloatParse_fracRepr q hq hqs,
      number_fracRepr q hq hqs]
  · obtain ⟨c, t, hct⟩ : ∃ c t, s.data = c :: t := by
      cases hs : s.data with
      | nil => exact absurd hs hne
      | cons c t => exact ⟨c, t, rfl⟩
    have hcl : isLetterChar c = true := hall c (by rw [hct]; simp)
    have hsn : isSignedNumberTok s = false := by
      simp [isSignedNumberTok, pyFloatParse_all_letters s hne hall]
    have hes : isEscapedStringTok s = false := by
      simp [isEscapedStringTok, hct, letter_ne_quote hcl]
    have hat : isAtomicStrTok s = true := by
      simp only [isAtomicStrTok, hct]
      refine (Bool.and_eq_true _ _).mpr ⟨by simp [isAtomicStart, hcl], ?_⟩
      rw [List.all_eq_true]
      intro x hx
      have hxl : isLetterChar x = true := hall x (by rw [hct]; exact List.mem_cons_of_mem c hx)
      simp [isAtomicCont, hxl]
    have hts : to_str (.str s) = s := rfl
    rw [hts]
    simp [reparse_literal, hsn, hes, hat, ExpressionEvaluator.atomic_string, hT, hF,
      reCellRefMatch_all_letters s hne hall]

/-- C9 counterexample: the text value `"a"` renders to the bare token
`a`, which the grammar reads as an `ATOMIC_STR`; `atomic_string` resolves
it as a name, fails, and raises the typed `NAME` error instead of
reproducing the string value — the claimed round-trip fails for text. -/
theorem display_roundtrip_counterexample :
    to_str (.str "a") = "a" ∧
    reparse_literal emptyEvalCtx (to_str (.str "a")) = some (.error (.evalErr .NAME)) ∧
    reparse_literal emptyEvalCtx (to_str (.str "a")) ≠ some (.ok (.str "a")) := by
  refine ⟨rfl, ?_, ?_⟩ <;> decide

theorem display_roundtrip_amended_witness :
    reparse_literal emptyEvalCtx (to_str (.int (-7))) = some (.ok (.int (-7))) ∧
    reparse_literal emptyEvalCtx (to_str (.bool true)) = some (.ok (.bool true)) ∧
    (reparse_literal emptyEvalCtx (to_str (.float 5)) = some (.ok (.int (5 : ℚ).num)) ∧
      pyEqB (.int (5 : ℚ).num) (.float 5) = true) ∧
    reparse_literal emptyEvalCtx (to_str (.float (Rat.mk' (-13) 4))) =
      some (.ok (.float (Rat.mk' (-13) 4))) ∧
    reparse_literal emptyEvalCtx (to_str (.str "hi")) = some (.error (.evalErr .NAME)) :=
  display_roundtrip_amended emptyEvalCtx (-7) true 5 (Rat.mk' (-13) 4) "hi"
    (by decide) (by decide) (by decide) (by decide)
    (by decide) (by decide) (by decide)

theorem number_no_null (tok : String) :
    ExpressionEvaluator.number tok ≠ Except.error (PyError.evalErr EvaluationError.NULL) := by
  unfold ExpressionEvaluator.number
  split
  · simp
  · split <;> simp

theorem cell_lookup_no_null (ctx : EvalCtx) (ref_sheet : Option String)
    (ref_col ref_row : String) :
    ExpressionEvaluator.cell_lookup ctx ref_sheet ref_col ref_row ≠
      Except.error (PyError.evalErr EvaluationError.NULL) := by
  unfold ExpressionEvaluator.cell_lookup
  dsimp only
  repeat' split
  all_goals simp

theorem except_map_error {ε α β : Type} (f : α → β) (x : Except ε α) (e : ε)
    (h : Except.map f x = Except.error e) : x = Except.error e := by
  cases x with
  | ok a => simp [Except.map] at h
  | error e2 => simpa [Except.map] using h

theorem atomic_string_no_null (ctx : EvalCtx) (name : String) :
    ExpressionEvaluator.atomic_string ctx name ≠
      Except.error (PyError.evalErr EvaluationError.NULL) := by
  unfold ExpressionEvaluator.atomic_string
  split
  · simp
  · split
    · simp
    · split
      · intro h
        exact cell_lookup_no_null ctx _ _ _ (except_map_error _ _ _ h)
      · simp

theorem logical_no_null (a : PyVal) (op : LogicalOp) (b : PyVal) :
    ExpressionEvaluator.logical a op b ≠
      Except.error (PyError.evalErr EvaluationError.NULL) := by
  unfold ExpressionEvaluator.logical
  dsimp only
  repeat' split
  all_goals simp

theorem math_pow_no_evalErr (x y : ℚ) (err : EvaluationError) :
    math_pow x y ≠ Except.error (PyError.evalErr err) := by
  unfold math_pow
  dsimp only
  repeat' split
  all_goals simp

theorem arithmetic_no_null (a : PyVal) (op : ArithOp) (b : PyVal) :
    ExpressionEvaluator.arithmetic a op b ≠
      Except.error (PyError.evalErr EvaluationError.NULL) := by
  unfold ExpressionEvaluator.arithmetic
  split
  · simp
  · match op with
    | .add => dsimp only; split <;> simp
    | .sub => dsimp only; split <;> simp
    | .mul => dsimp only; split <;> simp
    | .div => dsimp only; split <;> simp
    | .pow =>
      dsimp only
      split
      · simp
      · next e heq hne =>
        intro hcontra
        injection hcontra with h1
        subst h1
        exact math_pow_no_evalErr a.toRat b.toRat .NULL hne
      · simp

theorem pyAbs_no_evalErr (args : List PyVal) (err : EvaluationError) :
    pyAbs args ≠ Except.error (PyError.evalErr err) := by
  unfold pyAbs
  repeat' split
  all_goals simp

theorem pyLenOfStr_no_evalErr (args : List PyVal) (err : EvaluationError) :
    pyLenOfStr args ≠ Except.error (PyError.evalErr err) := by
  unfold pyLenOfStr
  repeat' split
  all_goals simp

theorem function_map_no_evalErr (entry : String × (List PyVal → Except PyError PyVal))
    (hmem : entry ∈ function_map) (args : List PyVal) (err : EvaluationError) :
    entry.2 args ≠ Except.error (PyError.evalErr err) := by
  rcases List.mem_pair.mp hmem with h | h <;> rw [h] <;> dsimp only
  · exact pyAbs_no_evalErr args err
  · exact pyLenOfStr_no_evalErr args err

theorem function_no_null (name : String) (args : List PyVal) :
    ExpressionEvaluator.function name args ≠
      Except.error (PyError.evalErr EvaluationError.NULL) := by
  unfold ExpressionEvaluator.function
  split
  · simp
  · next entry hfind =>
    have hmem : entry ∈ function_map := List.mem_of_find?_eq_some hfind
    split
    · simp
    · split
      · simp
      · split <;> simp
    · next e h1 h2 =>
      intro hcontra
      injection hcontra with hh
      subst hh
      exact function_map_no_evalErr entry hmem args .NULL h2

mutual

theorem evalE_no_null (ctx : EvalCtx) :
    ∀ e : Expr, evalE ctx e ≠ Except.error (PyError.evalErr EvaluationError.NULL)
  | .number tok => number_no_null tok
  | .stringLit tok => by simp [evalE]
  | .errorRef => by simp [evalE, ExpressionEvaluator.error_ref]
  | .atomicStr tok => atomic_string_no_null ctx tok
  | .logicalCmp a op b => by
    have ha := evalE_no_null ctx a
    have hb := evalE_no_null ctx b
    simp only [evalE, Bind.bind, Except.bind]
    cases hva : evalE ctx a with
    | error e =>
      rw [hva] at ha
      simpa using ha
    | ok va =>
      cases hvb : evalE ctx b with
      | error e =>
        rw [hvb] at hb
        simpa using hb
      | ok vb => simpa using logical_no_null va op vb
  | .concatOp a b => by
    have ha := evalE_no_null ctx a
    have hb := evalE_no_null ctx b
    simp only [evalE, Bind.bind, Except.bind]
    cases hva : evalE ctx a with
    | error e =>
      rw [hva] at ha
      simpa using ha
    | ok va =>
      cases hvb : evalE ctx b with
      | error e =>
        rw [hvb] at hb
        simpa using hb
      | ok vb => simp [Pure.pure, Except.pure]
  | .arith a op b => by
    have ha := evalE_no_null ctx a
    have hb := evalE_no_null ctx b
    simp only [evalE, Bind.bind, Except.bind]
    cases hva : evalE ctx a with
    | error e =>
      rw [hva] at ha
      simpa using ha
    | ok va =>
      cases hvb : evalE ctx b with
      | error e =>
        rw [hvb] at hb
        simpa using hb
      | ok vb => simpa using arithmetic_no_null va op vb
  | .funcCall name args => by
    have hargs := evalArgs_no_null ctx args
    simp only [evalE, Bind.bind, Except.bind]
    cases hv : evalArgs ctx args with
    | error e =>
      rw [hv] at hargs
      simpa using hargs
    | ok vs => simpa using function_no_null name vs

theorem evalArgs_no_null (ctx : EvalCtx) :
    ∀ l : List Expr, evalArgs ctx l ≠ Except.error (PyError.evalErr EvaluationError.NULL)
  | [] => by simp [evalArgs]
  | e :: rest => by
    have he := evalE_no_null ctx e
    have hr := evalArgs_no_null ctx rest
    simp only [evalArgs, Bind.bind, Except.bind]
    cases hv : evalE ctx e with
    | error e2 =>
      rw [hv] at he
      simpa using he
    | ok v =>
      cases hv2 : evalArgs ctx rest with
      | error e2 =>
        rw [hv2] at hr
        simpa using hr
      | ok vs => simp [Pure.pure, Except.pure]

end

theorem evaluate_no_null_outcome (e : Expr) (ctx : EvalCtx) :
    evaluate e ctx ≠ Except.ok (EvalOutcome.err EvaluationError.NULL) := by
  have h := evalE_no_null ctx e
  unfold evaluate
  cases hv : evalE ctx e with
  | ok v => simp
  | error pe =>
    rw [hv] at h
    cases pe with
    | evalErr err =>
      cases err with
      | NULL => exact absurd rfl h
      | DIV0 => simp
      | VALUE => simp
      | NA => simp
      | NAME => simp
      | NUM => simp
      | REF => simp
    | zeroDivision => simp
    | overflowErr => simp
    | typeErr msg => simp
    | valueErr msg => simp
    | keyErr => simp
    | notModelled what => simp

/-- C10: the `NULL` member is declared in the `EvaluationError` enumeration
but is unreachable: no transformer rule ever raises the typed `NULL` error
(first conjunct, over every parse tree and context), and consequently the
public `evaluate` entry point never returns the `#NULL!` outcome (second
conjunct). -/
theorem evaluate_never_NULL (e : Expr) (ctx : EvalCtx) :
    evalE ctx e ≠ Except.error (PyError.evalErr EvaluationError.NULL) ∧
    evaluate e ctx ≠ Except.ok (EvalOutcome.err EvaluationError.NULL) :=
  ⟨evalE_no_null ctx e, evaluate_no_null_outcome e ctx⟩
